import Mathlib

/-!
# Verification of the bombe-mcp indexing and query engine

Shallow embedding of the Rust sources under `crates/bombe-core/src`, together
with theorems settling the frozen claims about the natural-language
specification.

Modelling conventions:

* Rust `&str` / `String` values are modelled as `List Char`; Rust string
  slicing and byte lengths use the UTF-8 byte size of each character
  (`Char.utf8Size`, identical to Rust's `char::len_utf8`).
* Rust `i64` is modelled as `Int`.  `f64` values that feed only orderings or
  reported metrics are modelled as exact fractions (`Fx` below); where an
  `f64` expression is proved
  to round to an exact integer result for all feasible inputs (token
  estimation, adaptive caps) the integer form is used and justified in a
  comment at the definition.
* Fallible operations return `Option`/`Except`, with `none` marking a Rust
  panic and an explicit error value marking a surfaced error.
* SQLite tables are modelled as Lean lists in row order; `SELECT` without
  `ORDER BY` returns rows in table order.
-/

set_option autoImplicit false
set_option linter.unusedVariables false
set_option maxRecDepth 100000
set_option maxHeartbeats 2000000

namespace Bombe

/-- Rust strings are modelled as lists of unicode scalar values. -/
abbrev Str := List Char

/-- UTF-8 byte length of a string (Rust `str::len`). -/
def byteLen (s : Str) : Nat := (s.map Char.utf8Size).sum

/-- The Unicode `White_Space` code points, as used by Rust `char::is_whitespace`
(and therefore by `str::trim`). -/
def rustIsWhitespace (c : Char) : Bool :=
  c.toNat ∈ [0x09, 0x0A, 0x0B, 0x0C, 0x0D, 0x20, 0x85, 0xA0, 0x1680,
    0x2000, 0x2001, 0x2002, 0x2003, 0x2004, 0x2005, 0x2006, 0x2007,
    0x2008, 0x2009, 0x200A, 0x2028, 0x2029, 0x202F, 0x205F, 0x3000]

/-- Rust `str::trim`: remove leading and trailing whitespace. -/
def rustTrim (s : Str) : Str :=
  ((s.dropWhile rustIsWhitespace).reverse.dropWhile rustIsWhitespace).reverse

/-- ASCII lowercasing of one character.  The Rust sources apply
`str::to_lowercase` / SQLite `LOWER` to identifier-alphabet text only; SQLite
`LOWER` is ASCII-only, and for ASCII input Rust lowercasing agrees with it. -/
def asciiLower (c : Char) : Char :=
  if c.toNat ≥ 65 ∧ c.toNat ≤ 90 then Char.ofNat (c.toNat + 32) else c

/-- Lowercase a whole string (ASCII). -/
def lowerStr (s : Str) : Str := s.map asciiLower

/-- `needle` occurs at the start of `hay`. -/
def strStartsWith (hay needle : Str) : Bool :=
  match hay, needle with
  | _, [] => true
  | [], _ :: _ => false
  | h :: hs, n :: ns => h == n && strStartsWith hs ns

/-- `needle` occurs somewhere inside `hay` (Rust `str::contains`). -/
def strContains (hay needle : Str) : Bool :=
  match hay with
  | [] => needle.isEmpty
  | _ :: t => strStartsWith hay needle || strContains t needle

/-- `hay` ends with `needle` (Rust `str::ends_with`). -/
def strEndsWith (hay needle : Str) : Bool :=
  strStartsWith hay.reverse needle.reverse

/-- Split a string at every occurrence of the separator character
(Rust `str::split(c)` / Python `str.split(c)` on a one-char separator). -/
def splitOnChar (sep : Char) (s : Str) : List Str :=
  match s with
  | [] => [[]]
  | c :: rest =>
    let tail := splitOnChar sep rest
    if c == sep then [] :: tail
    else
      match tail with
      | [] => [[c]]
      | t :: ts => (c :: t) :: ts

/-- Rust `str::rsplit_once('.')`: split on the last occurrence of `.`,
returning the part before and after it. -/
def rsplitOnceDot (s : Str) : Option (Str × Str) :=
  match s.reverse.takeWhile (fun c => c != '.'), s.reverse.dropWhile (fun c => c != '.') with
  | _, [] => none
  | afterRev, _ :: beforeRev => some (beforeRev.reverse, afterRev.reverse)

/-!
## Exact fractions

`f64` values that only feed orderings and reported metrics are modelled as
exact fractions.  `Fx` is a raw numerator/denominator pair over `Int` (the
denominator is kept positive by every operation below and never zero on the
paths exercised); unlike Mathlib's `Rat` its operations are plain integer
arithmetic, which the kernel evaluates, so concrete runs of the model can be
checked by `decide`.  Decimal literals of the source (`0.85`, `0.78`, `1e-9`)
are read exactly; see the module comment on the `f64`/`Fx` gap.
-/

/-- An exact fraction (not normalized; positive denominator). -/
structure Fx where
  num : Int
  den : Int
deriving DecidableEq

/-- Build a fraction. -/
def fx (n d : Int) : Fx := ⟨n, d⟩

/-- Embed an integer. -/
def Fx.ofInt (n : Int) : Fx := ⟨n, 1⟩

/-- Addition. -/
def Fx.add (a b : Fx) : Fx := ⟨a.num * b.den + b.num * a.den, a.den * b.den⟩

/-- Subtraction. -/
def Fx.sub (a b : Fx) : Fx := ⟨a.num * b.den - b.num * a.den, a.den * b.den⟩

/-- Multiplication. -/
def Fx.mul (a b : Fx) : Fx := ⟨a.num * b.num, a.den * b.den⟩

/-- Division (sign moved to the numerator; division by zero is never reached
on the modelled paths, matching the guards of the source). -/
def Fx.div (a b : Fx) : Fx :=
  if b.num < 0 then ⟨-(a.num * b.den), a.den * (-b.num)⟩
  else ⟨a.num * b.den, a.den * b.num⟩

/-- Strict comparison (positive denominators). -/
def Fx.lt (a b : Fx) : Bool := a.num * b.den < b.num * a.den

/-- `f64::max`. -/
def Fx.fmax (a b : Fx) : Fx := if Fx.lt a b then b else a

/-- `f64::min`. -/
def Fx.fmin (a b : Fx) : Fx := if Fx.lt a b then a else b

/-- Sum of a list of fractions. -/
def fxSum (l : List Fx) : Fx := l.foldl Fx.add ⟨0, 1⟩

/-!
## Guards (`crates/bombe-core/src/query/guards.rs`)
-/

def MAX_QUERY_LENGTH : Nat := 512
def MAX_CONTEXT_TOKEN_BUDGET : Int := 32000
def MIN_CONTEXT_TOKEN_BUDGET : Int := 1
def MAX_CONTEXT_EXPANSION_DEPTH : Int := 4
def MAX_GRAPH_VISITED : Int := 2000
def MAX_CONTEXT_SEEDS : Nat := 32

/-- `clamp_int(value, minimum, maximum) = value.max(minimum).min(maximum)`. -/
def clamp_int (value minimum maximum : Int) : Int :=
  min (max value minimum) maximum

/-- `clamp_depth(value, maximum) = clamp_int(value, 1, maximum)`. -/
def clamp_depth (value maximum : Int) : Int := clamp_int value 1 maximum

/-- `clamp_budget(value, minimum, maximum) = clamp_int(value, minimum, maximum)`. -/
def clamp_budget (value minimum maximum : Int) : Int := clamp_int value minimum maximum

/-- Take the longest prefix whose UTF-8 encoding is exactly `n` bytes.
Returns `none` when byte offset `n` falls strictly inside a character, in
which case the Rust slice expression `&stripped[..n]` panics. -/
def takeBytes (s : Str) (n : Nat) : Option Str :=
  match s, n with
  | _, 0 => some []
  | [], _ + 1 => none
  | c :: cs, m + 1 =>
    if c.utf8Size ≤ m + 1 then (takeBytes cs (m + 1 - c.utf8Size)).map (c :: ·)
    else none

/-- `truncate_query`: trim, then return the trimmed string if its byte length
is at most `MAX_QUERY_LENGTH`, else the first `MAX_QUERY_LENGTH` bytes.
`none` models the Rust panic of `stripped[..MAX_QUERY_LENGTH]` when byte 512
is not a character boundary. -/
def truncate_query (query : Str) : Option Str :=
  let stripped := rustTrim query
  if byteLen stripped ≤ MAX_QUERY_LENGTH then some stripped
  else takeBytes stripped MAX_QUERY_LENGTH

/-- `adaptive_graph_cap`.  The Rust expression
`(bounded_total.max(1) as f64 * 0.2) as i64` equals `⌊max(total,0,1) / 5⌋`
for every `i64` in range: the f64 rounding error of `x * 0.2` is far below
the 1/5 distance separating `x * 0.2` from the next integer when `5 ∤ x`,
and for `5 ∣ x` the product rounds to a value in `[x/5, x/5 + ulp)`, which
truncates to `x/5`. -/
def adaptive_graph_cap (total_symbols base_cap : Int) (floor? : Option Int) : Int :=
  let floor := floor?.getD 200
  let bounded_total := max total_symbols 0
  let estimated := max floor ((max bounded_total 1) / 5)
  clamp_int estimated floor base_cap

/-!
## Tokenizer (`crates/bombe-core/src/query/tokenizer.rs`)
-/

/-- `estimate_tokens(text) = 0` if empty, else `(len / 3.5).max(1.0) as i64`.
`text.len()` is the UTF-8 byte length.  For every feasible length `L` the f64
expression `(L as f64 / 3.5).max(1.0) as i64` equals `max 1 ⌊2L/7⌋`: `3.5`
is exactly representable, and the division's rounding error cannot carry
`2L/7` across an integer (the fractional part is a multiple of 1/7, and an
exact integer quotient divides out exactly). -/
def estimate_tokens (text : Str) : Int :=
  if text.isEmpty then 0 else max 1 ((2 * (byteLen text : Int)) / 7)

/-!
## Federated executor (`crates/bombe-core/src/query/federated/executor.rs`)

Each of `execute_search`, `execute_references` and `execute_blast_radius`
iterates over the plan's `shard_ids`, runs the single-shard engine, and
collects per-shard reports.  The single-shard invocation is external
(a per-shard database query); its outcome is modelled as a value: either the
list of result items it contributed (`execute_search` appends the response's
symbols; the other two push the whole response, a one-element contribution)
or a failure.
-/

/-- Outcome of invoking the single-shard engine for one shard id. -/
inductive ShardOutcome (α : Type) where
  | ok (results : List α)
  | err (message : Str)
deriving DecidableEq

/-- Per-shard report entry: shard position, status string. -/
structure ShardReport where
  status : Str
deriving DecidableEq

/-- The shape of a federated response (`results`, `shard_reports`,
`total_matches`, `shards_queried`, `shards_failed`); `elapsed_ms` and
per-report latency are wall-clock values and are omitted. -/
structure FederatedResponse (α : Type) where
  results : List α
  shard_reports : List ShardReport
  total_matches : Int
  shards_queried : Int
  shards_failed : Int
deriving DecidableEq

/-- The accumulating loop body shared by the three federated entry points:
on success append the shard's contribution to `all_results`, on failure
increment `shards_failed`; always push a report. -/
def federatedLoop (α : Type) :
    List (ShardOutcome α) → List α → List ShardReport → Int →
      List α × List ShardReport × Int
  | [], allResults, reports, failed => (allResults, reports, failed)
  | .ok rs :: rest, allResults, reports, failed =>
    federatedLoop α rest (allResults ++ rs) (reports ++ [⟨"ok".toList⟩]) failed
  | .err _ :: rest, allResults, reports, failed =>
    federatedLoop α rest allResults (reports ++ [⟨"error".toList⟩]) (failed + 1)

/-- `execute_search` (and, with singleton contributions, `execute_references`
and `execute_blast_radius`): fan out over the plan's shard outcomes and build
the response.  `shards_queried` is set to the length of the plan's
`shard_ids` list. -/
def execute_search {α : Type} (outcomes : List (ShardOutcome α)) :
    FederatedResponse α :=
  let (allResults, reports, failed) := federatedLoop α outcomes [] [] 0
  { results := allResults
    shard_reports := reports
    total_matches := allResults.length
    shards_queried := outcomes.length
    shards_failed := failed }

/-- The result items a single shard outcome contributes to the concatenated
output. -/
def shardContribution {α : Type} : ShardOutcome α → List α
  | .ok rs => rs
  | .err _ => []

/-!
## Store: per-file symbol replacement (`crates/bombe-core/src/store/database.rs`)

`Database::replace_file_symbols` opens a plain connection (foreign keys on,
no transaction or savepoint), deletes the file's FTS rows, parameters and
symbols, then inserts the new rows one statement at a time, surfacing the
first SQLite error.  The persistent tables it touches are modelled below;
an insert fails exactly when it violates a declared constraint of
`store/schema.rs` (`symbols.file_path REFERENCES files(path)`,
`symbols.parent_symbol_id REFERENCES symbols(id)`,
`UNIQUE(qualified_name, file_path)`, `UNIQUE(symbol_id, position)`).
-/

/-- A parameter row value (`models.rs::ParameterRecord` fields used here). -/
structure ParamRecord where
  name : Str
  type_ : Option Str
  position : Int
  default_value : Option Str
deriving DecidableEq

/-- A symbol row value (`models.rs::SymbolRecord` fields used here). -/
structure SymbolRecord where
  name : Str
  qualified_name : Str
  kind : Str
  file_path : Str
  start_line : Int
  end_line : Int
  signature : Option Str
  return_type : Option Str
  visibility : Option Str
  is_async : Bool
  is_static : Bool
  parent_symbol_id : Option Int
  docstring : Option Str
  pagerank_score : Fx
  parameters : List ParamRecord
deriving DecidableEq

/-- An FTS projection row `(symbol_id, name, qualified_name, docstring,
signature)`. -/
structure FtsRow where
  symbol_id : Int
  name : Str
  qualified_name : Str
  docstring : Str
  signature : Str
deriving DecidableEq

/-- The persisted tables `replace_file_symbols` reads or writes. -/
structure DbState where
  files : List Str
  symbols : List (Int × SymbolRecord)
  parameters : List (Int × ParamRecord)
  symbol_fts : List FtsRow
  next_rowid : Int
deriving DecidableEq

/-- Does inserting `sym` into `symbols` violate a constraint?
Foreign keys are enforced (`PRAGMA foreign_keys = ON` in `connect`). -/
def symbolInsertViolation (st : DbState) (sym : SymbolRecord) : Bool :=
  !(st.files.contains sym.file_path)
  || st.symbols.any (fun p =>
      p.2.qualified_name == sym.qualified_name && p.2.file_path == sym.file_path)
  || (match sym.parent_symbol_id with
      | none => false
      | some pid => !(st.symbols.any (fun p => p.1 == pid)))

/-- Insert the parameter rows of one symbol, one statement at a time; the
first `UNIQUE(symbol_id, position)` violation surfaces as an error with the
rows inserted so far left in place. -/
def insertParams (sid : Int) : List ParamRecord → DbState → Bool × DbState
  | [], st => (true, st)
  | p :: rest, st =>
    if (st.parameters.any fun q => q.1 == sid && q.2.position == p.position) then
      (false, st)
    else
      insertParams sid rest { st with parameters := st.parameters ++ [(sid, p)] }

/-- The insert half of `replace_file_symbols`: walk the deduplicated symbol
list, inserting the symbol row, its parameters, and its FTS row (best-effort).
Returns `(false, st)` at the first constraint violation, with every statement
already executed still applied — there is no enclosing transaction. -/
def insertSymbols : List SymbolRecord → List (Str × Str) → DbState → Bool × DbState
  | [], _, st => (true, st)
  | sym :: rest, seen, st =>
    if seen.contains (sym.qualified_name, sym.file_path) then
      insertSymbols rest seen st
    else if symbolInsertViolation st sym then
      (false, st)
    else
      let sid := st.next_rowid
      let st1 : DbState :=
        { st with
          symbols := st.symbols ++ [(sid, sym)]
          next_rowid := st.next_rowid + 1 }
      match insertParams sid sym.parameters st1 with
      | (false, st2) => (false, st2)
      | (true, st2) =>
        let st3 : DbState :=
          { st2 with
            symbol_fts := st2.symbol_fts ++
              [{ symbol_id := sid
                 name := sym.name
                 qualified_name := sym.qualified_name
                 docstring := sym.docstring.getD []
                 signature := sym.signature.getD [] }] }
        insertSymbols rest ((sym.qualified_name, sym.file_path) :: seen) st3

/-- `replace_file_symbols(file_path, symbols)`: collect the old symbol ids
for the path, delete their FTS rows, delete their parameters, delete the
symbols, then insert the new rows (deduplicating by
`(qualified_name, file_path)`).  The boolean is `false` when an error was
surfaced; the returned state is the persisted state at that moment. -/
def replace_file_symbols (st0 : DbState) (file_path : Str)
    (symbols : List SymbolRecord) : Bool × DbState :=
  let old_ids := (st0.symbols.filter (fun p => p.2.file_path == file_path)).map (·.1)
  let st1 : DbState :=
    { st0 with symbol_fts := st0.symbol_fts.filter (fun r => !(old_ids.contains r.symbol_id)) }
  let st2 : DbState :=
    { st1 with parameters := st1.parameters.filter (fun q => !(old_ids.contains q.1)) }
  let st3 : DbState :=
    { st2 with symbols := st2.symbols.filter (fun p => !(p.2.file_path == file_path)) }
  insertSymbols symbols [] st3

/-!
## Regular expressions

The Rust sources compile their patterns with the `regex` crate, which uses
leftmost-first (preference-order) match semantics: alternations prefer the
left branch, `?`/`*`/`+` are greedy and `*?` is lazy, and `find_iter` /
`replace_all` enumerate successive non-overlapping leftmost matches.  The
engine below implements exactly these semantics by backtracking, with a fuel
argument for termination; every starred subexpression used in this file
consumes at least one character per iteration, and the initial fuel
`|input| + 1` is then never exhausted, so the fuel never changes the result.
-/

/-- Regular expression syntax: empty, single character from a class,
concatenation, preference-ordered alternation, greedy option, greedy star,
lazy star, and numbered capture group. -/
inductive RE where
  | eps
  | cls (p : Char → Bool)
  | seq (a b : RE)
  | alt (a b : RE)
  | opt (a : RE)
  | star (a : RE)
  | lazyStar (a : RE)
  | group (idx : Nat) (a : RE)

/-- Capture environment: most recent assignment first. -/
abbrev Caps := List (Nat × Str)

/-- Look up a capture group. -/
def capsGet (caps : Caps) (idx : Nat) : Option Str :=
  (caps.find? (fun p => p.1 == idx)).map (·.2)

/-- One layer of the backtracking matcher, structurally recursive in the
pattern.  `starRec` re-enters a `*`/`*?` iteration at strictly smaller fuel;
`k` receives the remaining input and the captures accumulated on the current
path.  (Structural recursion keeps every run kernel-evaluable.) -/
def matchGo
    (starRec : RE → Str → Caps → (Str → Caps → Option (Str × Caps)) → Option (Str × Caps)) :
    RE → Str → Caps → (Str → Caps → Option (Str × Caps)) → Option (Str × Caps)
  | .eps, s, caps, k => k s caps
  | .cls p, s, caps, k =>
    (match s with
     | [] => none
     | c :: rest => if p c then k rest caps else none)
  | .seq a b, s, caps, k =>
    matchGo starRec a s caps (fun s1 caps1 => matchGo starRec b s1 caps1 k)
  | .alt a b, s, caps, k =>
    (matchGo starRec a s caps k).orElse (fun _ => matchGo starRec b s caps k)
  | .opt a, s, caps, k => (matchGo starRec a s caps k).orElse (fun _ => k s caps)
  | .star a, s, caps, k =>
    (matchGo starRec a s caps (fun s1 caps1 =>
      if s1.length < s.length then starRec (.star a) s1 caps1 k else none)
    ).orElse (fun _ => k s caps)
  | .lazyStar a, s, caps, k =>
    (k s caps).orElse (fun _ =>
      matchGo starRec a s caps (fun s1 caps1 =>
        if s1.length < s.length then starRec (.lazyStar a) s1 caps1 k else none))
  | .group idx a, s, caps, k =>
    matchGo starRec a s caps (fun s1 caps1 =>
      k s1 ((idx, s.take (s.length - s1.length)) :: caps1))

/-- Backtracking matcher.  Every star iteration consumes at least one
character (each starred subexpression in this file is non-nullable), so with
fuel `|input| + 1` the zero-fuel base is never reached and the matcher
implements exactly the unbounded leftmost-first semantics. -/
def matchRE : Nat → RE → Str → Caps → (Str → Caps → Option (Str × Caps)) →
    Option (Str × Caps)
  | 0 => matchGo (fun _ s caps k => k s caps)
  | fuel + 1 => matchGo (matchRE fuel)

/-- Match `re` at the start of `s` (preference order).  Returns the length of
the match and the captures. -/
def reCaptures (re : RE) (s : Str) : Option (Nat × Caps) :=
  (matchRE (s.length + 1) re s [] (fun rest caps => some (rest, caps))).map
    (fun p => (s.length - p.1.length, p.2))

/-- One pass of `Regex::replace_all` together with the `find_iter` match
count: scan left to right; at each position take the leftmost-first match,
emit `repl` of its captures, and continue after it.  A zero-length match
cannot arise from the patterns in this file; it is skipped defensively.
Each step consumes at least one character, so the fuel (the input length,
supplied by `scanReplace`) is never exhausted. -/
def scanReplaceGo (re : RE) (repl : Caps → Str) : Nat → Str → Str × Nat
  | _, [] => ([], 0)
  | 0, s => (s, 0)
  | fuel + 1, c :: rest =>
    (match reCaptures re (c :: rest) with
     | some (len, caps) =>
       if len = 0 then
         let (out, n) := scanReplaceGo re repl fuel rest
         (c :: out, n)
       else
         let (out, n) := scanReplaceGo re repl fuel ((c :: rest).drop len)
         (repl caps ++ out, n + 1)
     | none =>
       let (out, n) := scanReplaceGo re repl fuel rest
       (c :: out, n))

/-- See `scanReplaceGo`. -/
def scanReplace (re : RE) (repl : Caps → Str) (s : Str) : Str × Nat :=
  scanReplaceGo re repl s.length s

/-- `Regex::find_iter` collecting the matched substrings, with the same
scanning rule as `scanReplaceGo`. -/
def scanMatchesGo (re : RE) : Nat → Str → List Str
  | _, [] => []
  | 0, _ => []
  | fuel + 1, c :: rest =>
    (match reCaptures re (c :: rest) with
     | some (len, _) =>
       if len = 0 then scanMatchesGo re fuel rest
       else (c :: rest).take len :: scanMatchesGo re fuel ((c :: rest).drop len)
     | none => scanMatchesGo re fuel rest)

/-- See `scanMatchesGo`. -/
def scanMatches (re : RE) (s : Str) : List Str := scanMatchesGo re s.length s

/-- A literal character. -/
def RE.ch (c : Char) : RE := .cls (fun d => d == c)

/-- A literal string. -/
def RE.lit (s : Str) : RE := s.foldr (fun c acc => .seq (.ch c) acc) .eps

/-- A case-insensitive literal (the `(?i)` literals in this file are ASCII). -/
def RE.litCI (s : Str) : RE :=
  s.foldr (fun c acc => .seq (.cls (fun d => asciiLower d == asciiLower c)) acc) .eps

/-- Greedy `+`. -/
def RE.plus (a : RE) : RE := .seq a (.star a)

/-- Exactly `n` repetitions. -/
def RE.rep (a : RE) : Nat → RE
  | 0 => .eps
  | n + 1 => .seq a (RE.rep a n)

/-- Greedy `{n,}`. -/
def RE.repAtLeast (a : RE) (n : Nat) : RE := .seq (RE.rep a n) (.star a)

/-- `[A-Za-z0-9]`. -/
def isAsciiAlnum (c : Char) : Bool :=
  (c ≥ 'A' && c ≤ 'Z') || (c ≥ 'a' && c ≤ 'z') || (c ≥ '0' && c ≤ '9')

/-- `[0-9A-Z]`. -/
def isUpperOrDigit (c : Char) : Bool :=
  (c ≥ 'A' && c ≤ 'Z') || (c ≥ '0' && c ≤ '9')

/-- `[A-Za-z_]`. -/
def isWordStart (c : Char) : Bool :=
  (c ≥ 'A' && c ≤ 'Z') || (c ≥ 'a' && c ≤ 'z') || c == '_'

/-- `[A-Za-z0-9_]`. -/
def isWordChar (c : Char) : Bool := isAsciiAlnum c || c == '_'

/-- `[0-9]`. -/
def isAsciiDigit (c : Char) : Bool := c ≥ '0' && c ≤ '9'

/-- `\s` (Unicode mode, as in the `regex` crate). -/
def reWs : RE := .cls rustIsWhitespace

/-- `\s*`. -/
def reWsStar : RE := .star reWs

/-- `\s+`. -/
def reWsPlus : RE := RE.plus reWs

/-- A quote character `['"]`. -/
def isQuote (c : Char) : Bool := c == Char.ofNat 39 || c == Char.ofNat 34

/-!
## Secret redaction (`crates/bombe-core/src/query/context.rs`, `REDACTION_PATTERNS`)
-/

/-- `sk-[A-Za-z0-9]{20,}`. -/
def RE_OPENAI_KEY : RE :=
  .seq (RE.lit "sk-".toList) (RE.repAtLeast (.cls isAsciiAlnum) 20)

/-- `AKIA[0-9A-Z]{16}`. -/
def RE_AWS_ACCESS_KEY : RE :=
  .seq (RE.lit "AKIA".toList) (RE.rep (.cls isUpperOrDigit) 16)

/-- `(?i)(api[_-]?key|token|secret)\s*[:=]\s*['"][^'"]+['"]`. -/
def RE_CRED_ASSIGN : RE :=
  .seq
    (.group 1
      (.alt
        (.seq (RE.litCI "api".toList)
          (.seq (.opt (.cls (fun c => c == '_' || c == '-'))) (RE.litCI "key".toList)))
        (.alt (RE.litCI "token".toList) (RE.litCI "secret".toList))))
    (.seq reWsStar
      (.seq (.cls (fun c => c == ':' || c == '='))
        (.seq reWsStar
          (.seq (.cls isQuote)
            (.seq (RE.plus (.cls (fun c => !isQuote c))) (.cls isQuote))))))

/-- The replacement `$1="[REDACTED]"`. -/
def credReplacement (caps : Caps) : Str :=
  (capsGet caps 1).getD [] ++
    ('=' :: Char.ofNat 34 :: "[REDACTED]".toList) ++ [Char.ofNat 34]

/-- `(?:RSA |EC |DSA )?`. -/
def reKeyAlg : RE :=
  .opt (.alt (RE.lit "RSA ".toList) (.alt (RE.lit "EC ".toList) (RE.lit "DSA ".toList)))

/-- `(?s)-----BEGIN (?:RSA |EC |DSA )?PRIVATE KEY-----.*?-----END (?:RSA |EC |DSA )?PRIVATE KEY-----`. -/
def RE_PRIVATE_KEY : RE :=
  .seq (RE.lit "-----BEGIN ".toList)
    (.seq reKeyAlg
      (.seq (RE.lit "PRIVATE KEY-----".toList)
        (.seq (.lazyStar (.cls (fun _ => true)))
          (.seq (RE.lit "-----END ".toList)
            (.seq reKeyAlg (RE.lit "PRIVATE KEY-----".toList))))))

/-- The four redaction patterns, in the order they are applied. -/
def REDACTION_PATTERNS : List (RE × (Caps → Str)) :=
  [ (RE_OPENAI_KEY, fun _ => "[REDACTED_OPENAI_KEY]".toList),
    (RE_AWS_ACCESS_KEY, fun _ => "[REDACTED_AWS_ACCESS_KEY]".toList),
    (RE_CRED_ASSIGN, credReplacement),
    (RE_PRIVATE_KEY, fun _ => "[REDACTED_PRIVATE_KEY]".toList) ]

/-- `redact_sensitive_text`: apply each pattern's `replace_all` in order,
accumulating the `find_iter` match counts (the count and the replacement use
the same match enumeration, so one scan produces both). -/
def redact_sensitive_text (text : Str) : Str × Int :=
  REDACTION_PATTERNS.foldl
    (fun acc pr =>
      let (res, count) := scanReplace pr.1 pr.2 acc.1
      (res, acc.2 + (count : Int)))
    (text, 0)

/-!
## Hybrid scoring (`crates/bombe-core/src/query/hybrid.rs`)

The environment toggles `BOMBE_HYBRID_SEARCH` / `BOMBE_HYBRID_VECTOR` are
modelled as boolean parameters.  Scores are `f64` in Rust; they are modelled
over `ℝ` (the `ln` of `structural_score` has no exact finite representation),
with the decimal literals read exactly.
-/

/-- `TOKEN_RE = [A-Za-z_][A-Za-z0-9_]+`. -/
def TOKEN_RE : RE := .seq (.cls isWordStart) (RE.plus (.cls isWordChar))

/-- Insert into a duplicate-free list, keeping first-occurrence order. -/
def insertUniq (l : List Str) (x : Str) : List Str :=
  if l.contains x then l else l ++ [x]

/-- `tokens(value)`: the set of lowercased `TOKEN_RE` matches.  (A Rust
`HashSet`, used only for cardinalities and membership; modelled as a
duplicate-free list.) -/
def strTokens (value : Str) : List Str :=
  (scanMatches TOKEN_RE value).foldl (fun acc m => insertUniq acc (lowerStr m)) []

/-- `lexical_score(query, name, qualified_name)`. -/
noncomputable def lexical_score (query name qualified_name : Str) : ℝ :=
  let q := lowerStr (rustTrim query)
  if q.isEmpty then 0
  else
    let n := lowerStr name
    let qn := lowerStr qualified_name
    if q = n ∨ q = qn then 1
    else if strContains n q then 0.9
    else if strContains qn q then 0.8
    else
      let query_tokens := strTokens query
      if query_tokens.isEmpty then 0
      else
        let target_tokens := strTokens (name ++ [' '] ++ qualified_name)
        if target_tokens.isEmpty then 0
        else
          ((query_tokens.filter (fun t => target_tokens.contains t)).length : ℝ) /
            (max query_tokens.length 1 : ℝ)

/-- `structural_score(pagerank, callers, callees)
  = pagerank.max(0) + 0.1 · ln((callers.max(0) + callees.max(0)) + 1)`. -/
noncomputable def structural_score (pagerank : ℝ) (callers callees : Int) : ℝ :=
  max pagerank 0 + Real.log (((max callers 0 + max callees 0 : Int) : ℝ) + 1) * 0.1

/-- `semantic_score(query, signature, docstring)` with the
`BOMBE_HYBRID_VECTOR` toggle as a parameter. -/
noncomputable def semantic_score (vector_enabled : Bool) (query : Str)
    (signature docstring : Option Str) : ℝ :=
  if !vector_enabled then 0
  else
    let query_tokens := strTokens query
    if query_tokens.isEmpty then 0
    else
      let corpus := signature.getD [] ++ [' '] ++ docstring.getD []
      let corpus_tokens := strTokens corpus
      if corpus_tokens.isEmpty then 0
      else
        ((query_tokens.filter (fun t => corpus_tokens.contains t)).length : ℝ) /
          (max query_tokens.length 1 : ℝ)

/-- `rank_symbol`: `0.55·lex + 0.35·struct + 0.10·sem` when hybrid search is
enabled, else `structural_score` alone. -/
noncomputable def rank_symbol (hybrid_enabled vector_enabled : Bool)
    (query name qualified_name : Str) (signature docstring : Option Str)
    (pagerank : ℝ) (callers callees : Int) : ℝ :=
  let lex := lexical_score query name qualified_name
  let struc := structural_score pagerank callers callees
  let sem := semantic_score vector_enabled query signature docstring
  if !hybrid_enabled then struc
  else lex * 0.55 + struc * 0.35 + sem * 0.1

/-!
## Call-graph target resolution (`crates/bombe-core/src/indexer/callgraph.rs`)
-/

/-- A single parameter of a function or method
(`indexer/symbols.rs::ExtractedParameter`). -/
structure ExtractedParameter where
  name : Str
  type_ : Option Str
  position : Int
deriving DecidableEq

/-- A symbol produced by extraction (`indexer/symbols.rs::ExtractedSymbol`). -/
structure ExtractedSymbol where
  name : Str
  qualified_name : Str
  kind : Str
  file_path : Str
  start_line : Int
  end_line : Int
  signature : Option Str
  return_type : Option Str
  visibility : Option Str
  is_async : Bool
  is_static : Bool
  docstring : Option Str
  parameters : List ExtractedParameter
deriving DecidableEq

/-- A call-site candidate (`indexer/callgraph.rs::CallSite`). -/
structure CallSite where
  callee_name : Str
  line_number : Int
  receiver_name : Option Str
deriving DecidableEq

/-- Split on a (non-empty) separator string (Rust `str::split(sep)`); the
fuel (the input length) is never exhausted. -/
def splitOnStrGo (sep : Str) : Nat → Str → List Str
  | _, [] => [[]]
  | 0, s => [s]
  | fuel + 1, c :: rest =>
    if 0 < sep.length ∧ strStartsWith (c :: rest) sep then
      [] :: splitOnStrGo sep fuel ((c :: rest).drop sep.length)
    else
      (match splitOnStrGo sep fuel rest with
       | [] => [[c]]
       | t :: ts => (c :: t) :: ts)

/-- See `splitOnStrGo`. -/
def splitOnStr (sep : Str) (s : Str) : List Str := splitOnStrGo sep s.length s

/-- `method_owner_name`: second-to-last dotted component of the qualified
name, or empty when there are fewer than two components. -/
def method_owner_name (s : ExtractedSymbol) : Str :=
  let parts := splitOnChar '.' s.qualified_name
  if parts.length < 2 then [] else (parts.drop (parts.length - 2)).headD []

/-- `type_name_tokens`: the lowered name plus, for each of `.`, `::`, `/`
occurring in it, the lowered last segment. -/
def type_name_tokens (type_name : Str) : List Str :=
  let value := rustTrim type_name
  if value.isEmpty then []
  else
    [".".toList, "::".toList, "/".toList].foldl
      (fun acc sep =>
        if strContains value sep then
          insertUniq acc (lowerStr ((splitOnStr sep value).getLastD []))
        else acc)
      [lowerStr value]

/-- `HashSet::is_disjoint`. -/
def disjointL (a b : List Str) : Bool := a.all (fun x => !(b.contains x))

/-- Association-list lookup (`HashMap::get`). -/
def assocGet (m : List (Str × List Str)) (k : Str) : Option (List Str) :=
  (m.find? (fun p => p.1 == k)).map (·.2)

/-- `resolve_targets`: cascading strategies (a)–(h); the first strategy with
a non-empty filtered candidate list returns it together with its single-hit
or multi-hit confidence. -/
def resolve_targets (callsite : CallSite) (caller : ExtractedSymbol)
    (candidate_symbols : List ExtractedSymbol)
    (import_hint_set : List Str)
    (alias_hints : List (Str × List Str))
    (receiver_type_hints lexical_hints semantic_hints : List Str) :
    List ExtractedSymbol × Fx :=
  let candidate_names :=
    callsite.callee_name :: (assocGet alias_hints callsite.callee_name).getD []
  let nameMatches := candidate_symbols.filter (fun s => candidate_names.contains s.name)
  if nameMatches.isEmpty then ([], Fx.ofInt 0)
  else
    let receiver := lowerStr (rustTrim (callsite.receiver_name.getD []))
    -- Strategy (a): class-scoped methods
    let stratA : Option (List ExtractedSymbol × Fx) :=
      if caller.kind == "method".toList then
        let classPre :=
          match rsplitOnceDot caller.qualified_name with
          | some (pre, _) => pre
          | none => []
        if !classPre.isEmpty then
          let prefixDot := classPre ++ ['.']
          let class_scoped := nameMatches.filter (fun s =>
            s.kind == "method".toList && strStartsWith s.qualified_name prefixDot)
          if !class_scoped.isEmpty &&
              (receiver.isEmpty || receiver == "self".toList ||
                receiver == "cls".toList || receiver == "this".toList) then
            some (class_scoped, if class_scoped.length == 1 then Fx.ofInt 1 else fx 78 100)
          else none
        else none
      else none
    match stratA with
    | some r => r
    | none =>
      -- Strategy (b): combined type hints
      let combined := receiver_type_hints ++ lexical_hints ++ semantic_hints
      let stratB : Option (List ExtractedSymbol × Fx) :=
        if !combined.isEmpty then
          let type_toks := combined.foldl
            (fun acc h => (type_name_tokens h).foldl insertUniq acc) []
          let typed_matches := nameMatches.filter (fun s =>
            s.kind == "method".toList &&
              !disjointL (type_name_tokens (method_owner_name s)) type_toks)
          if !typed_matches.isEmpty then
            some (typed_matches, if typed_matches.length == 1 then Fx.ofInt 1 else fx 84 100)
          else none
        else none
      match stratB with
      | some r => r
      | none =>
        -- Strategy (c): alias-based type hints
        let alias_receiver_hints :=
          (assocGet alias_hints (callsite.receiver_name.getD [])).getD []
        let stratC : Option (List ExtractedSymbol × Fx) :=
          if !alias_receiver_hints.isEmpty then
            let alias_toks := alias_receiver_hints.foldl
              (fun acc h => (type_name_tokens h).foldl insertUniq acc) []
            let alias_typed := nameMatches.filter (fun s =>
              s.kind == "method".toList &&
                !disjointL (type_name_tokens (method_owner_name s)) alias_toks)
            if !alias_typed.isEmpty then
              some (alias_typed, if alias_typed.length == 1 then Fx.ofInt 1 else fx 83 100)
            else none
          else none
        match stratC with
        | some r => r
        | none =>
          -- Strategies (d) and (e): receiver-based matching
          let stratDE : Option (List ExtractedSymbol × Fx) :=
            if !receiver.isEmpty && !(receiver == "self".toList) &&
                !(receiver == "cls".toList) && !(receiver == "this".toList) then
              let class_receiver := nameMatches.filter (fun s =>
                s.kind == "method".toList &&
                  (let parts := splitOnChar '.' s.qualified_name
                   let owner := if parts.length ≥ 2 then
                       (parts.drop (parts.length - 2)).headD []
                     else []
                   owner == receiver))
              if !class_receiver.isEmpty then
                some (class_receiver, if class_receiver.length == 1 then Fx.ofInt 1 else fx 79 100)
              else
                let needle := '.' :: receiver ++ ['.']
                let receiver_scoped := nameMatches.filter (fun s =>
                  s.kind == "method".toList && strContains s.qualified_name needle)
                if !receiver_scoped.isEmpty then
                  some (receiver_scoped, if receiver_scoped.length == 1 then Fx.ofInt 1 else fx 75 100)
                else none
            else none
          match stratDE with
          | some r => r
          | none =>
            -- Strategy (f): same file as the caller
            let same_file := nameMatches.filter (fun s => s.file_path == caller.file_path)
            if !same_file.isEmpty then
              (same_file, if same_file.length == 1 then Fx.ofInt 1 else fx 8 10)
            else
              -- Strategy (g): import-scoped
              let import_scoped := nameMatches.filter (fun s =>
                import_hint_set.any (fun hint =>
                  !hint.isEmpty &&
                    (strContains hint s.qualified_name ||
                      strContains s.qualified_name hint ||
                      strEndsWith s.file_path ('/' :: hint ++ ".py".toList) ||
                      strEndsWith s.file_path ('/' :: hint ++ ".ts".toList) ||
                      strEndsWith s.file_path ('/' :: hint ++ ".go".toList))))
              if !import_scoped.isEmpty then
                (import_scoped, if import_scoped.length == 1 then Fx.ofInt 1 else fx 7 10)
              else
                -- Strategy (h): all name matches
                (nameMatches, if nameMatches.length == 1 then Fx.ofInt 1 else fx 5 10)

/-!
## Symbol extraction (`crates/bombe-core/src/indexer/symbols.rs`)

Java and TypeScript extraction: line-based regex scanners with a brace-depth
stack for enclosing classes.
-/

/-- An import statement extracted from source code. -/
structure ExtractedImport where
  source_file_path : Str
  import_statement : Str
  module_name : Str
  imported_names : List Str
  line_number : Int
deriving DecidableEq

/-- Rust `str::lines()`: split on `\n`, strip a trailing `\r` from each line,
and do not yield a final empty line for a trailing newline. -/
def rustLines (s : Str) : List Str :=
  let parts := splitOnChar '\n' s
  let parts :=
    match parts.reverse with
    | [] :: revRest => revRest.reverse
    | _ => parts
  parts.map (fun l =>
    match l.reverse with
    | '\r' :: r => r.reverse
    | _ => l)

/-- Count occurrences of a character (`line.chars().filter(..).count()`). -/
def countChar (c : Char) (s : Str) : Int := ((s.filter (fun d => d == c)).length : Int)

/-- Replace every occurrence of `pat` by the empty string
(Rust `str::replace(pat, "")`); the fuel (the input length) is never
exhausted. -/
def strRemoveAllGo (pat : Str) : Nat → Str → Str
  | _, [] => []
  | 0, s => s
  | fuel + 1, c :: rest =>
    if 0 < pat.length ∧ strStartsWith (c :: rest) pat then
      strRemoveAllGo pat fuel ((c :: rest).drop pat.length)
    else c :: strRemoveAllGo pat fuel rest

/-- See `strRemoveAllGo`. -/
def strRemoveAll (pat : Str) (s : Str) : Str := strRemoveAllGo pat s.length s

/-- Update the element at a position, when it exists. -/
def listModify {α : Type} (l : List α) (n : Nat) (f : α → α) : List α :=
  match l, n with
  | [], _ => []
  | x :: xs, 0 => f x :: xs
  | x :: xs, m + 1 => x :: listModify xs m f

/-- `to_module_name(path)`: strip the extension, join the normal path
components with dots (skipping empty, `.` and `..` components). -/
def stripExt (name : Str) : Str :=
  match rsplitOnceDot name with
  | some (pre, _) => if pre.isEmpty then name else pre
  | none => name

/-- See `stripExt`. -/
def to_module_name (path : Str) : Str :=
  let parts := splitOnChar '/' path
  let parts :=
    match parts.reverse with
    | [] => []
    | last :: revRest => (stripExt last :: revRest).reverse
  let parts := parts.filter (fun s =>
    !s.isEmpty && !(s == ".".toList) && !(s == "..".toList))
  List.intercalate ".".toList parts

/-- `build_parameters(params_raw, language)`: split the raw parameter text on
commas; per-language chunk parsing; `position` is the chunk's index in the
comma-split enumeration. -/
def build_parameters (params_raw : Str) (language : Str) : List ExtractedParameter :=
  let trimmed := rustTrim params_raw
  if trimmed.isEmpty then []
  else
    ((splitOnChar ',' trimmed).enum.filterMap (fun pi =>
      let chunk := rustTrim pi.2
      let index := pi.1
      if chunk.isEmpty then none
      else
        let nt : Option (Str × Option Str) :=
          if language == "typescript".toList then
            match splitOnChar ':' chunk with
            | [_] => some (chunk, none)
            | before :: afterParts =>
              let before := rustTrim before
              let after := rustTrim (List.intercalate [':'] afterParts)
              some (before, if after.isEmpty then none else some after)
            | [] => some (chunk, none)
          else if language == "go".toList then
            let parts := (splitOnChar ' ' (chunk.map (fun c => if c == '\t' then ' ' else c))).filter
              (fun s => !s.isEmpty)
            match parts with
            | [] => none
            | n :: restParts =>
              some (strRemoveAll "...".toList n,
                if restParts.isEmpty then none else some (List.intercalate [' '] restParts))
          else
            let parts := (splitOnChar ' ' (chunk.map (fun c => if c == '\t' then ' ' else c))).filter
              (fun s => !s.isEmpty)
            match parts.reverse with
            | [] => none
            | n :: revInit =>
              some (strRemoveAll "...".toList n,
                if revInit.isEmpty then none else some (List.intercalate [' '] revInit.reverse))
        match nt with
        | none => none
        | some (n, t) =>
          if n.isEmpty then none
          else some { name := n, type_ := t, position := (index : Int) }))

/-- `normalize_type_name`: trim, strip trailing `;`, `none` when empty. -/
def normalize_type_name (type_name : Option Str) : Option Str :=
  match type_name with
  | none => none
  | some raw =>
    let normalized := ((rustTrim raw).reverse.dropWhile (fun c => c == ';')).reverse
    if normalized.isEmpty then none else some normalized

/-- `[A-Za-z_][A-Za-z0-9_]*` (identifier in the extraction regexes). -/
def reIdent : RE := .seq (.cls isWordStart) (.star (.cls isWordChar))

/-- `[^)]*` (parameter text inside parentheses). -/
def reParen : RE := .star (.cls (fun c => !(c == ')')))

/-- `.` outside `(?s)` mode: any character but `\n`. -/
def reDot : RE := .cls (fun c => !(c == '\n'))

/-- `^\s*package\s+([A-Za-z0-9_.]+)\s*;`. -/
def JAVA_PACKAGE_RE : RE :=
  .seq reWsStar (.seq (RE.lit "package".toList) (.seq reWsPlus
    (.seq (.group 1 (RE.plus (.cls (fun c => isAsciiAlnum c || c == '_' || c == '.'))))
      (.seq reWsStar (RE.ch ';')))))

/-- `^\s*import\s+([A-Za-z0-9_.*]+)\s*;`. -/
def JAVA_IMPORT_RE : RE :=
  .seq reWsStar (.seq (RE.lit "import".toList) (.seq reWsPlus
    (.seq (.group 1 (RE.plus (.cls (fun c => isAsciiAlnum c || c == '_' || c == '.' || c == '*'))))
      (.seq reWsStar (RE.ch ';')))))

/-- `^\s*(public|private|protected)?\s*(?:abstract\s+|final\s+)?(class|interface|enum)\s+([A-Za-z_][A-Za-z0-9_]*)`. -/
def JAVA_CLASS_RE : RE :=
  .seq reWsStar
    (.seq (.opt (.group 1 (.alt (RE.lit "public".toList)
      (.alt (RE.lit "private".toList) (RE.lit "protected".toList)))))
      (.seq reWsStar
        (.seq (.opt (.alt (.seq (RE.lit "abstract".toList) reWsPlus)
          (.seq (RE.lit "final".toList) reWsPlus)))
          (.seq (.group 2 (.alt (RE.lit "class".toList)
            (.alt (RE.lit "interface".toList) (RE.lit "enum".toList))))
            (.seq reWsPlus (.group 3 reIdent))))))

/-- `^\s*(public|private|protected)?\s*(static\s+)?(?:final\s+)?([A-Za-z0-9_<>\[\], ?]+)\s+([A-Za-z_][A-Za-z0-9_]*)\s*\(([^)]*)\)\s*\{`. -/
def JAVA_METHOD_RE : RE :=
  .seq reWsStar
    (.seq (.opt (.group 1 (.alt (RE.lit "public".toList)
      (.alt (RE.lit "private".toList) (RE.lit "protected".toList)))))
      (.seq reWsStar
        (.seq (.opt (.group 2 (.seq (RE.lit "static".toList) reWsPlus)))
          (.seq (.opt (.seq (RE.lit "final".toList) reWsPlus))
            (.seq (.group 3 (RE.plus (.cls (fun c =>
              isAsciiAlnum c || c == '_' || c == '<' || c == '>' ||
                c == '[' || c == ']' || c == ',' || c == ' ' || c == '?'))))
              (.seq reWsPlus
                (.seq (.group 4 reIdent)
                  (.seq reWsStar
                    (.seq (RE.ch '(')
                      (.seq (.group 5 reParen)
                        (.seq (RE.ch ')')
                          (.seq reWsStar (RE.ch (Char.ofNat 123))))))))))))))

/-- `^\s*import(?:\s+type)?\s+.*?\s+from\s+['"]([^'"]+)['"];?`. -/
def TS_IMPORT_RE : RE :=
  .seq reWsStar
    (.seq (RE.lit "import".toList)
      (.seq (.opt (.seq reWsPlus (RE.lit "type".toList)))
        (.seq reWsPlus
          (.seq (.lazyStar reDot)
            (.seq reWsPlus
              (.seq (RE.lit "from".toList)
                (.seq reWsPlus
                  (.seq (.cls isQuote)
                    (.seq (.group 1 (RE.plus (.cls (fun c => !isQuote c))))
                      (.seq (.cls isQuote) (.opt (RE.ch ';'))))))))))))

/-- `^\s*(?:export\s+)?(class|interface|type)\s+([A-Za-z_][A-Za-z0-9_]*)`. -/
def TS_CLASS_RE : RE :=
  .seq reWsStar
    (.seq (.opt (.seq (RE.lit "export".toList) reWsPlus))
      (.seq (.group 1 (.alt (RE.lit "class".toList)
        (.alt (RE.lit "interface".toList) (RE.lit "type".toList))))
        (.seq reWsPlus (.group 2 reIdent))))

/-- `^\s*(?:export\s+)?(?:async\s+)?function\s+([A-Za-z_][A-Za-z0-9_]*)\s*\(([^)]*)\)\s*(?::\s*([^{]+))?`. -/
def TS_FUNCTION_RE : RE :=
  .seq reWsStar
    (.seq (.opt (.seq (RE.lit "export".toList) reWsPlus))
      (.seq (.opt (.seq (RE.lit "async".toList) reWsPlus))
        (.seq (RE.lit "function".toList)
          (.seq reWsPlus
            (.seq (.group 1 reIdent)
              (.seq reWsStar
                (.seq (RE.ch '(')
                  (.seq (.group 2 reParen)
                    (.seq (RE.ch ')')
                      (.seq reWsStar
                        (.opt (.seq (RE.ch ':')
                          (.seq reWsStar
                            (.group 3 (RE.plus (.cls (fun c => !(c == Char.ofNat 123)))))))))
                      )))))))))

/-- `^\s*(?:export\s+)?(?:const|let|var)\s+([A-Za-z_][A-Za-z0-9_]*)\s*=\s*(?:async\s+)?\(([^)]*)\)\s*(?::\s*([^=]+))?\s*=>`. -/
def TS_ARROW_RE : RE :=
  .seq reWsStar
    (.seq (.opt (.seq (RE.lit "export".toList) reWsPlus))
      (.seq (.alt (RE.lit "const".toList) (.alt (RE.lit "let".toList) (RE.lit "var".toList)))
        (.seq reWsPlus
          (.seq (.group 1 reIdent)
            (.seq reWsStar
              (.seq (RE.ch '=')
                (.seq reWsStar
                  (.seq (.opt (.seq (RE.lit "async".toList) reWsPlus))
                    (.seq (RE.ch '(')
                      (.seq (.group 2 reParen)
                        (.seq (RE.ch ')')
                          (.seq reWsStar
                            (.seq (.opt (.seq (RE.ch ':')
                              (.seq reWsStar
                                (.group 3 (RE.plus (.cls (fun c => !(c == '='))))))))
                              (.seq reWsStar (RE.lit "=>".toList)))))))))))))))

/-- `^\s*(?:public|private|protected)?\s*(?:async\s+)?([A-Za-z_][A-Za-z0-9_]*)\s*\(([^)]*)\)\s*(?::\s*([^=]+))?\s*\{?`. -/
def TS_METHOD_RE : RE :=
  .seq reWsStar
    (.seq (.opt (.alt (RE.lit "public".toList)
      (.alt (RE.lit "private".toList) (RE.lit "protected".toList))))
      (.seq reWsStar
        (.seq (.opt (.seq (RE.lit "async".toList) reWsPlus))
          (.seq (.group 1 reIdent)
            (.seq reWsStar
              (.seq (RE.ch '(')
                (.seq (.group 2 reParen)
                  (.seq (RE.ch ')')
                    (.seq reWsStar
                      (.seq (.opt (.seq (RE.ch ':')
                        (.seq reWsStar
                          (.group 3 (RE.plus (.cls (fun c => !(c == '='))))))))
                        (.seq reWsStar (.opt (RE.ch (Char.ofNat 123))))))))))))))

/-- `^\s*(?:export\s+)?const\s+([A-Za-z_][A-Za-z0-9_]*)\s*=\s*[^=].*;`. -/
def TS_CONST_RE : RE :=
  .seq reWsStar
    (.seq (.opt (.seq (RE.lit "export".toList) reWsPlus))
      (.seq (RE.lit "const".toList)
        (.seq reWsPlus
          (.seq (.group 1 reIdent)
            (.seq reWsStar
              (.seq (RE.ch '=')
                (.seq reWsStar
                  (.seq (.cls (fun c => !(c == '=')))
                    (.seq (.star reDot) (RE.ch ';'))))))))))

/-- `Regex::captures` on an anchored (`^...`) pattern: the captures of the
preference-order match at the start of the line. -/
def reCapsAnchored (re : RE) (s : Str) : Option Caps :=
  (reCaptures re s).map (·.2)

/-- Group text (the Rust `caps[i]` / `caps.get(i)` accessors). -/
def capStr (caps : Caps) (idx : Nat) : Str := (capsGet caps idx).getD []

/-- `Vec::push` for symbol lists. -/
def pushSym (l : List ExtractedSymbol) (x : ExtractedSymbol) : List ExtractedSymbol := l ++ [x]

/-- `Vec::push` for import lists. -/
def pushImp (l : List ExtractedImport) (x : ExtractedImport) : List ExtractedImport := l ++ [x]

/-- Scanner state of `java_symbols`.  The class stack holds
`(symbol_index, class_name, brace_depth)` with the innermost class first
(the Rust `Vec` keeps it last). -/
structure JavaScanState where
  package_name : Str
  imports : List ExtractedImport
  symbols : List ExtractedSymbol
  class_stack : List (Nat × Str × Int)
deriving DecidableEq

/-- The `while` loop popping finished classes: while the innermost class has
brace depth `≤ 0`, pop it and set its symbol's `end_line` to the current
line.  Classes below the top keep the depth they were pushed with. -/
def popFinished (index : Int) :
    List ExtractedSymbol → List (Nat × Str × Int) →
      List ExtractedSymbol × List (Nat × Str × Int)
  | syms, [] => (syms, [])
  | syms, (fi, nm, d) :: rest =>
    if d ≤ 0 then
      popFinished index (listModify syms fi (fun s => { s with end_line := index })) rest
    else (syms, (fi, nm, d) :: rest)

/-- Brace-depth tracking at the end of a `java_symbols` line: add the line's
`{`/`}` delta to the top of the stack, then pop finished classes.  Runs only
when the class stack is non-empty. -/
def javaBraceTrack (line : Str) (index : Int) (syms : List ExtractedSymbol)
    (stack : List (Nat × Str × Int)) :
    List ExtractedSymbol × List (Nat × Str × Int) :=
  match stack with
  | [] => (syms, [])
  | (fi, nm, d) :: rest =>
    let delta := countChar (Char.ofNat 123) line - countChar (Char.ofNat 125) line
    popFinished index syms ((fi, nm, d + delta) :: rest)

/-- One line of the `java_symbols` scanner. -/
def javaLine (file_path : Str) (index : Int) (st : JavaScanState) (line : Str) :
    JavaScanState :=
  let st :=
    match reCapsAnchored JAVA_PACKAGE_RE line with
    | some caps => { st with package_name := capStr caps 1 }
    | none => st
  let st :=
    match reCapsAnchored JAVA_IMPORT_RE line with
    | some caps =>
      { st with imports := (pushImp st.imports
          { source_file_path := file_path
            import_statement := rustTrim line
            module_name := capStr caps 1
            imported_names := []
            line_number := index }) }
    | none => st
  match reCapsAnchored JAVA_CLASS_RE line with
  | some caps =>
    -- class / interface / enum declaration; `continue` skips the rest of the
    -- loop body (method matching and brace tracking) for this line
    let vis := (capsGet caps 1).getD "package".toList
    let raw_kind := capStr caps 2
    let kind := if raw_kind == "interface".toList then "interface".toList else "class".toList
    let class_name := capStr caps 3
    let qualified_name :=
      if st.package_name.isEmpty then class_name
      else st.package_name ++ '.' :: class_name
    let symbol_index := st.symbols.length
    let brace_depth :=
      countChar (Char.ofNat 123) line - countChar (Char.ofNat 125) line
    { st with
      class_stack := (symbol_index, class_name, brace_depth) :: st.class_stack
      symbols := (pushSym st.symbols
        { name := class_name
          qualified_name := qualified_name
          kind := kind
          file_path := file_path
          start_line := index
          end_line := index
          signature := some (rustTrim line)
          return_type := none
          visibility := some vis
          is_async := false
          is_static := false
          docstring := none
          parameters := [] }) }
  | none =>
    let st :=
      match reCapsAnchored JAVA_METHOD_RE line with
      | some caps =>
        if !st.class_stack.isEmpty then
          let vis := (capsGet caps 1).getD "package".toList
          let is_static := (capsGet caps 2).isSome
          let return_type := rustTrim (capStr caps 3)
          let method_name := capStr caps 4
          let params_raw := rustTrim (capStr caps 5)
          let parameters := build_parameters params_raw "java".toList
          let current_class := (st.class_stack.headD (0, [], 0)).2.1
          let class_pre :=
            if st.package_name.isEmpty then current_class
            else st.package_name ++ '.' :: current_class
          { st with symbols := (pushSym st.symbols
              { name := method_name
                qualified_name := class_pre ++ '.' :: method_name
                kind := "method".toList
                file_path := file_path
                start_line := index
                end_line := index
                signature := some (rustTrim line)
                return_type := some return_type
                visibility := some vis
                is_async := false
                is_static := is_static
                docstring := none
                parameters := parameters }) }
        else st
      | none => st
    let p := javaBraceTrack line index st.symbols st.class_stack
    { st with symbols := p.1, class_stack := p.2 }

/-- `java_symbols(source, file_path)`. -/
def java_symbols (source file_path : Str) :
    List ExtractedSymbol × List ExtractedImport :=
  let init : JavaScanState :=
    { package_name := [], imports := [], symbols := [], class_stack := [] }
  let final := (rustLines source).enum.foldl
    (fun st p => javaLine file_path ((p.1 : Int) + 1) st p.2) init
  (final.symbols, final.imports)

/-- Scanner state of `typescript_symbols`.  The class stack holds
`(class_name, brace_depth)`, innermost first; note that — unlike the Java
scanner — it records no symbol index, and popping a finished class does not
touch any symbol's `end_line`. -/
structure TsScanState where
  imports : List ExtractedImport
  symbols : List ExtractedSymbol
  class_stack : List (Str × Int)
deriving DecidableEq

/-- Pop TypeScript classes whose brace depth returned to `≤ 0`. -/
def popTsFinished : List (Str × Int) → List (Str × Int)
  | [] => []
  | (nm, d) :: rest => if d ≤ 0 then popTsFinished rest else (nm, d) :: rest

/-- Brace-depth tracking at the end of a `typescript_symbols` line. -/
def tsBraceTrack (line : Str) (stack : List (Str × Int)) : List (Str × Int) :=
  match stack with
  | [] => []
  | (nm, d) :: rest =>
    let delta := countChar (Char.ofNat 123) line - countChar (Char.ofNat 125) line
    popTsFinished ((nm, d + delta) :: rest)

/-- One line of the `typescript_symbols` scanner. -/
def tsLine (module_name file_path : Str) (index : Int) (st : TsScanState)
    (line : Str) : TsScanState :=
  let st :=
    match reCapsAnchored TS_IMPORT_RE line with
    | some caps =>
      { st with imports := (pushImp st.imports
          { source_file_path := file_path
            import_statement := rustTrim line
            module_name := capStr caps 1
            imported_names := []
            line_number := index }) }
    | none => st
  match reCapsAnchored TS_CLASS_RE line with
  | some caps =>
    let raw_kind := capStr caps 1
    let kind :=
      if raw_kind == "interface".toList || raw_kind == "type".toList then
        "interface".toList
      else "class".toList
    let class_name := capStr caps 2
    let brace_depth :=
      countChar (Char.ofNat 123) line - countChar (Char.ofNat 125) line
    { st with
      symbols := (pushSym st.symbols
        { name := class_name
          qualified_name := module_name ++ '.' :: class_name
          kind := kind
          file_path := file_path
          start_line := index
          end_line := index
          signature := some (rustTrim line)
          return_type := none
          visibility := some "public".toList
          is_async := false
          is_static := false
          docstring := none
          parameters := [] })
      class_stack := (class_name, brace_depth) :: st.class_stack }
  | none =>
  match reCapsAnchored TS_FUNCTION_RE line with
  | some caps =>
    { st with symbols := (pushSym st.symbols
        { name := capStr caps 1
          qualified_name := module_name ++ '.' :: capStr caps 1
          kind := "function".toList
          file_path := file_path
          start_line := index
          end_line := index
          signature := some (rustTrim line)
          return_type := normalize_type_name (capsGet caps 3)
          visibility := some "public".toList
          is_async := strContains line "async ".toList
          is_static := false
          docstring := none
          parameters := build_parameters (capStr caps 2) "typescript".toList }) }
  | none =>
  match reCapsAnchored TS_ARROW_RE line with
  | some caps =>
    { st with symbols := (pushSym st.symbols
        { name := capStr caps 1
          qualified_name := module_name ++ '.' :: capStr caps 1
          kind := "function".toList
          file_path := file_path
          start_line := index
          end_line := index
          signature := some (rustTrim line)
          return_type := normalize_type_name (capsGet caps 3)
          visibility := some "public".toList
          is_async := strContains line "async ".toList
          is_static := false
          docstring := none
          parameters := build_parameters (capStr caps 2) "typescript".toList }) }
  | none =>
    let st :=
      match reCapsAnchored TS_METHOD_RE line with
      | some caps =>
        if !st.class_stack.isEmpty then
          let method_name := capStr caps 1
          if !(method_name == "constructor".toList) then
            let current_class := (st.class_stack.headD ([], 0)).1
            { st with symbols := (pushSym st.symbols
                { name := method_name
                  qualified_name :=
                  module_name ++ '.' :: current_class ++ '.' :: method_name
                  kind := "method".toList
                  file_path := file_path
                  start_line := index
                  end_line := index
                  signature := some (rustTrim line)
                  return_type := normalize_type_name (capsGet caps 3)
                  visibility := some "public".toList
                  is_async := strContains line "async ".toList
                  is_static := false
                  docstring := none
                  parameters := build_parameters (capStr caps 2) "typescript".toList }) }
          else st
        else st
      | none => st
    let st :=
      match reCapsAnchored TS_CONST_RE line with
      | some caps =>
        if !strContains line "=>".toList then
          { st with symbols := (pushSym st.symbols
              { name := capStr caps 1
                qualified_name := module_name ++ '.' :: capStr caps 1
                kind := "constant".toList
                file_path := file_path
                start_line := index
                end_line := index
                signature := some (rustTrim line)
                return_type := none
                visibility := some "public".toList
                is_async := false
                is_static := false
                docstring := none
                parameters := [] }) }
        else st
      | none => st
    { st with class_stack := tsBraceTrack line st.class_stack }

/-- `typescript_symbols(source, file_path)`. -/
def typescript_symbols (source file_path : Str) :
    List ExtractedSymbol × List ExtractedImport :=
  let module_name := to_module_name file_path
  let init : TsScanState := { imports := [], symbols := [], class_stack := [] }
  let final := (rustLines source).enum.foldl
    (fun st p => tsLine module_name file_path ((p.1 : Int) + 1) st p.2) init
  (final.symbols, final.imports)

/-!
## Context assembly (`crates/bombe-core/src/query/context.rs`)

External collaborators are parameters:

* `fts : Str → List Int` — the result rows of the FTS5 `MATCH … ORDER BY
  bm25 … LIMIT 8` statement, an SQLite engine behaviour (a failing FTS
  statement behaves as the empty result, exactly as the `if let Ok` in
  `pick_seeds`);
* `fs : Str → Option Str` — `std::fs::read_to_string` for `source_fragment`
  (`none` = I/O error, treated as empty content by the code).

Rust `HashMap`/`HashSet` iteration order is unspecified; the model fixes
insertion order.  The `f64` score arithmetic of the personalized PageRank and
ranking stage is carried out over `Fx`; those scores only determine
processing orders, and every claim theorem below is invariant under both
choices (the packing-loop lemmas are proved for arbitrary orders).
-/

/-- Sorted insertion for a stable sort: `ord a b` means `a` strictly precedes
`b`; equal elements keep their original relative order (Rust `sort_by` and
SQLite `ORDER BY` are modelled as stable). -/
def insertStable {α : Type} (ord : α → α → Bool) (x : α) : List α → List α
  | [] => [x]
  | y :: ys => if ord y x then y :: insertStable ord x ys else x :: y :: ys

/-- Stable sort by a strict-precedence predicate. -/
def sortStable {α : Type} (ord : α → α → Bool) : List α → List α
  | [] => []
  | x :: xs => insertStable ord x (sortStable ord xs)

/-- Decimal rendering of a natural number (Rust `format!`); the fuel bounds
the digit count and is never exhausted. -/
def natToStrGo : Nat → Nat → Str
  | 0, _ => []
  | fuel + 1, n =>
    if n < 10 then [Char.ofNat (48 + n)]
    else natToStrGo fuel (n / 10) ++ [Char.ofNat (48 + n % 10)]

/-- See `natToStrGo`. -/
def natToStr (n : Nat) : Str := natToStrGo (n + 1) n

/-- Decimal rendering of an integer. -/
def intToStr (i : Int) : Str :=
  if i < 0 then '-' :: natToStr (-i).toNat else natToStr i.toNat

/-- `WORD_RE = [A-Za-z_][A-Za-z0-9_]+` (same pattern as `TOKEN_RE`). -/
def WORD_RE : RE := .seq (.cls isWordStart) (RE.plus (.cls isWordChar))

/-- A row of the `symbols` table as read by the context engine. -/
structure CtxSymbolRow where
  id : Int
  name : Str
  kind : Str
  qualified_name : Str
  file_path : Str
  start_line : Int
  end_line : Int
  signature : Option Str
  pagerank_score : Fx
deriving DecidableEq

/-- A row of the `edges` table as read by the context engine. -/
structure CtxEdgeRow where
  source_id : Int
  target_id : Int
  source_type : Str
  target_type : Str
  relationship : Str
deriving DecidableEq

/-- The store as read by the context engine (lists in row order). -/
structure CtxDb where
  symbols : List CtxSymbolRow
  edges : List CtxEdgeRow
deriving DecidableEq

/-- The `RELATIONSHIPS` constant. -/
def RELATIONSHIPS : List Str :=
  ["CALLS".toList, "IMPORTS_SYMBOL".toList, "EXTENDS".toList,
    "IMPLEMENTS".toList, "HAS_METHOD".toList]

/-- The edge filter shared by every context SQL statement:
`source_type = 'symbol' AND target_type = 'symbol' AND relationship IN (…)`. -/
def edgeRelevant (e : CtxEdgeRow) : Bool :=
  e.source_type == "symbol".toList && e.target_type == "symbol".toList &&
    RELATIONSHIPS.contains e.relationship

/-- `source_fragment`: read the file, split on `\n`, and join the requested
1-based inclusive line span.  `end_line as usize` wraps for negative values,
giving `lines.len()` after the `min`. -/
def source_fragment (fs : Str → Option Str) (file_path : Str)
    (start_line end_line : Int) : Str :=
  match fs file_path with
  | none => []
  | some content =>
    let lines := splitOnChar '\n' content
    let start_idx := (max (start_line - 1) 0).toNat
    let end_idx :=
      if end_line < 0 then lines.length else min end_line.toNat lines.length
    if start_idx ≥ lines.length ∨ start_idx ≥ end_idx then []
    else List.intercalate ['\n'] ((lines.drop start_idx).take (end_idx - start_idx))

/-- `query_terms`: lowercased `WORD_RE` matches of length ≥ 2 (a `HashSet`,
modelled as a duplicate-free list). -/
def query_terms (query : Str) : List Str :=
  ((scanMatches WORD_RE query).foldl (fun acc m => insertUniq acc (lowerStr m)) []).filter
    (fun t => t.length ≥ 2)

/-- `symbol_query_relevance`: the number of query terms contained in the
lowered name, qualified name or signature. -/
def symbol_query_relevance (name qualified_name signature : Str)
    (terms : List Str) : Int :=
  if terms.isEmpty then 0
  else
    let haystacks := [lowerStr name, lowerStr qualified_name, lowerStr signature]
    terms.foldl
      (fun score term =>
        if haystacks.any (fun h => strContains h term) then score + 1 else score) 0

/-- SQLite `LIKE` full-match: `%` matches any sequence, `_` any single
character (both sides are already lowercased by the SQL, and `LIKE`'s own
ASCII case folding is the identity on lowercase text).  Every step shortens
the pattern or the text, so the fuel (their combined length, supplied by
`likeMatch`) is never exhausted. -/
def likeMatchGo : Nat → Str → Str → Bool
  | 0, p, t => p.isEmpty && t.isEmpty
  | _ + 1, [], t => t.isEmpty
  | fuel + 1, '%' :: ps, t =>
    likeMatchGo fuel ps t ||
      (match t with
       | [] => false
       | _ :: ts => likeMatchGo fuel ('%' :: ps) ts)
  | fuel + 1, '_' :: ps, t =>
    (match t with
     | [] => false
     | _ :: ts => likeMatchGo fuel ps ts)
  | fuel + 1, pc :: ps, t =>
    (match t with
     | [] => false
     | tc :: ts => tc == pc && likeMatchGo fuel ps ts)

/-- See `likeMatchGo`. -/
def likeMatch (p t : Str) : Bool := likeMatchGo (p.length + t.length + 1) p t

/-- Helper of `splitWs`: the current (reversed) token and the rest. -/
def splitWsAux : Str → Str → List Str
  | cur, [] => if cur.isEmpty then [] else [cur.reverse]
  | cur, c :: rest =>
    if rustIsWhitespace c then
      (if cur.isEmpty then [] else [cur.reverse]) ++ splitWsAux [] rest
    else splitWsAux (c :: cur) rest

/-- Rust `str::split_whitespace`: the maximal whitespace-free runs. -/
def splitWs (s : Str) : List Str := splitWsAux [] s

/-- `ORDER BY pagerank_score DESC` (stable in table order for ties). -/
def sortByPrDesc (l : List CtxSymbolRow) : List CtxSymbolRow :=
  sortStable (fun a b => Fx.lt b.pagerank_score a.pagerank_score) l

/-- Stages 2 and 3 of `pick_seeds` (no entry point resolved): the FTS seed
query, falling back to the LIKE word query. -/
def pick_seeds_fallback (fts : Str → List Int) (db : CtxDb) (query : Str) :
    List Int :=
  let query_text := rustTrim query
  let fts_rows := fts query_text
  if !fts_rows.isEmpty then fts_rows
  else
    let words := ((splitWs query_text).map (fun w => lowerStr (rustTrim w))).filter
      (fun w => !w.isEmpty)
    if words.isEmpty then []
    else
      let rows := db.symbols.filter (fun s =>
        words.any (fun w =>
          likeMatch ('%' :: w ++ ['%']) (lowerStr s.name) ||
            likeMatch ('%' :: w ++ ['%']) (lowerStr s.qualified_name)))
      ((sortByPrDesc rows).take 8).map (·.id)

/-- `pick_seeds`: entry-point resolution, then FTS, then the LIKE fallback. -/
def pick_seeds (fts : Str → List Int) (db : CtxDb) (query : Str)
    (entry_points : List Str) : List Int :=
  if !entry_points.isEmpty then
    let seeds := entry_points.filterMap (fun entry =>
      let cands := db.symbols.filter (fun s =>
        s.qualified_name == entry || s.name == entry)
      ((sortByPrDesc cands).head?).map (·.id))
    if !seeds.isEmpty then seeds else pick_seeds_fallback fts db query
  else pick_seeds_fallback fts db query

/-- Depth-map lookup (`HashMap<i64, i64>` as an insertion-ordered list). -/
def assocFindI (m : List (Int × Int)) (k : Int) : Option Int :=
  (m.find? (fun p => p.1 == k)).map (·.2)

/-- `HashMap::insert`: update in place, or append a new key. -/
def assocUpsert (m : List (Int × Int)) (k v : Int) : List (Int × Int) :=
  if m.any (fun p => p.1 == k) then
    m.map (fun p => if p.1 == k then (k, v) else p)
  else m ++ [(k, v)]

/-- One BFS step of `expand` over the rows of the per-node edge query. -/
def expandNeighbors (rows : List CtxEdgeRow) (current current_depth max_nodes : Int)
    (st : List (Int × Int) × List (Int × Int)) :
    List (Int × Int) × List (Int × Int) :=
  rows.foldl
    (fun (st : List (Int × Int) × List (Int × Int)) e =>
      let (reached, queue) := st
      let neighbor := if e.source_id == current then e.target_id else e.source_id
      let next_depth := current_depth + 1
      let previous := assocFindI reached neighbor
      if previous.isNone || next_depth < previous.getD 0 then
        let reached := assocUpsert reached neighbor next_depth
        let queue :=
          if (reached.length : Int) < max_nodes then queue ++ [(neighbor, next_depth)]
          else queue
        (reached, queue)
      else (reached, queue))
    st

/-- The `expand` worklist loop.  `fuel` only enforces termination; the caller
passes a bound no run can exhaust (every queue entry stems from the initial
seeding or from an insert-or-improve of a node's depth). -/
def expandLoop (db : CtxDb) (depth max_nodes : Int) :
    Nat → List (Int × Int) → List (Int × Int) → List (Int × Int)
  | 0, reached, _ => reached
  | _ + 1, reached, [] => reached
  | fuel + 1, reached, (current, current_depth) :: queue =>
    if (reached.length : Int) ≥ max_nodes then reached
    else if current_depth ≥ depth then expandLoop db depth max_nodes fuel reached queue
    else
      let rows := db.edges.filter (fun e =>
        edgeRelevant e && (e.source_id == current || e.target_id == current))
      let st := expandNeighbors rows current current_depth max_nodes (reached, queue)
      expandLoop db depth max_nodes fuel st.1 st.2

/-- `expand(conn, seeds, depth, max_nodes)`: seeded BFS, returning the
insertion-ordered `reached` map from symbol id to depth. -/
def expand (db : CtxDb) (seeds : List Int) (depth max_nodes : Int) :
    List (Int × Int) :=
  let reached := seeds.foldl (fun m seed => assocUpsert m seed 0) []
  let queue := seeds.map (fun seed => (seed, 0))
  expandLoop db depth max_nodes
    ((seeds.length + 8 * db.edges.length + 8) * 8) reached queue

/-- The undirected multiplicity adjacency of `personalized_pagerank`
(both directions of every relevant edge whose endpoints are nodes). -/
def pprAdj (db : CtxDb) (nodes : List Int) (n : Int) : List Int :=
  (db.edges.filter edgeRelevant).foldl
    (fun acc e =>
      if nodes.contains e.source_id && nodes.contains e.target_id then
        let acc := if e.source_id == n then acc ++ [e.target_id] else acc
        if e.target_id == n then acc ++ [e.source_id] else acc
      else acc)
    []

/-- One power iteration of `personalized_pagerank`. -/
def pprIterate (nodes : List Int) (adj : Int → List Int) (damping : Fx)
    (restart scores : Int → Fx) : Int → Fx :=
  fun n =>
    if !nodes.contains n then Fx.ofInt 0
    else
      Fx.add (Fx.mul ((Fx.ofInt 1).sub damping) (restart n))
        (fxSum (nodes.map (fun src =>
          let ts := adj src
          if ts.isEmpty then Fx.ofInt 0
          else Fx.mul (Fx.div (Fx.mul damping (scores src)) (Fx.ofInt ts.length))
            (Fx.ofInt ((ts.filter (fun t => t == n)).length)))))

/-- `personalized_pagerank(conn, seeds, nodes, damping, iterations)`. -/
def personalized_pagerank (db : CtxDb) (seeds nodes : List Int) (damping : Fx)
    (iterations : Nat) : Int → Fx :=
  if nodes.isEmpty then fun _ => Fx.ofInt 0
  else
    let adj := pprAdj db nodes
    let seedsD := seeds.eraseDups
    let restart : Int → Fx := fun n =>
      if !nodes.contains n then Fx.ofInt 0
      else if !seedsD.isEmpty && seedsD.contains n then fx 1 seedsD.length
      else Fx.ofInt 0
    (pprIterate nodes adj damping restart)^[iterations] restart

/-- The deduplicated undirected adjacency of `build_adjacency`
(`HashSet` neighbours in insertion order). -/
def buildAdj (db : CtxDb) (nodes : List Int) (n : Int) : List Int :=
  (db.edges.filter edgeRelevant).foldl
    (fun acc e =>
      if nodes.contains e.source_id && nodes.contains e.target_id then
        let acc :=
          if e.source_id == n && !acc.contains e.target_id then acc ++ [e.target_id]
          else acc
        if e.target_id == n && !acc.contains e.source_id then acc ++ [e.source_id]
        else acc
      else acc)
    []

/-- The per-symbol data carried through ranking and packing
(`context.rs::SymbolData`). -/
structure SymbolData where
  id : Int
  name : Str
  kind : Str
  qualified_name : Str
  file_path : Str
  start_line : Int
  end_line : Int
  signature : Str
  is_seed : Bool
  depth : Int
deriving DecidableEq

/-- The score-map lookup used by `topology_order` (`HashMap` collected from
`ranked`; on duplicate ids the last entry wins). -/
def scoreOf (ranked : List (Fx × SymbolData)) (i : Int) : Fx :=
  ((ranked.reverse.find? (fun p => p.2.id == i)).map (·.1)).getD (Fx.ofInt 0)

/-- The breadth-first walk of `topology_order`. -/
def topoBfs (adj : Int → List Int) (score : Int → Fx) :
    Nat → List (Int × Str) → List Int → List (Int × Str) →
      List (Int × Str) × List Int
  | 0, _, seen, ordered => (ordered, seen)
  | _ + 1, [], seen, ordered => (ordered, seen)
  | fuel + 1, (current, reason) :: queue, seen, ordered =>
    if seen.contains current then topoBfs adj score fuel queue seen ordered
    else
      let seen := seen ++ [current]
      let ordered := ordered ++ [(current, reason)]
      let neighbor_list := sortStable (fun a b => Fx.lt (score b) (score a)) (adj current)
      let queue := queue ++
        (neighbor_list.filter (fun nb => !seen.contains nb)).map
          (fun nb => (nb, "graph_neighbor".toList))
      topoBfs adj score fuel queue seen ordered

/-- `topology_order(ranked, seeds, adjacency)`: BFS from the seeds in score
order, then the unreached ranked symbols as `rank_fallback`. -/
def topology_order (ranked : List (Fx × SymbolData)) (seeds : List Int)
    (adj : Int → List Int) (fuel : Nat) : List (Int × Str) :=
  let score := scoreOf ranked
  let seed_ids := sortStable (fun a b => Fx.lt (score b) (score a)) seeds.eraseDups
  let queue := seed_ids.map (fun sid => (sid, "seed".toList))
  let (ordered, seen) := topoBfs adj score fuel queue [] []
  ordered ++
    ((ranked.filter (fun p => !seen.contains p.2.id)).map
      (fun p => (p.2.id, "rank_fallback".toList)))

/-- One symbol included in the bundle (`context.rs::IncludedSymbol`). -/
structure IncludedSymbol where
  id : Int
  name : Str
  kind : Str
  qualified_name : Str
  file_path : Str
  start_line : Int
  end_line : Int
  depth : Int
  included_as : Str
  source : Str
  selection_reason : Str
deriving DecidableEq

/-- The accumulating state of the packing loop (step 10 of
`get_context_impl`). -/
structure PackState where
  tokens_used : Int
  included : List IncludedSymbol
  seen_keys : List (Str × Str × Str)
  duplicate_skips : Int
  redaction_hits : Int
deriving DecidableEq

/-- The `selection_reason` string of an included symbol. -/
def selectionReason (topology_reason : Str) (depth : Int) (mode : Str)
    (is_seed : Bool) : Str :=
  List.intercalate [','] t
where
  t : List Str :=
    [topology_reason, "depth=".toList ++ intToStr depth, "mode=".toList ++ mode] ++
      (if is_seed then ["seed_match".toList] else [])

/-- Append one included symbol to the state. -/
def packPush (st : PackState) (sym : SymbolData) (topology_reason : Str)
    (mode source : Str) (key : Str × Str × Str) (symbol_tokens : Int) : PackState :=
  { st with
    tokens_used := st.tokens_used + symbol_tokens
    seen_keys := st.seen_keys ++ [key]
    included := st.included ++
      [{ id := sym.id
         name := sym.name
         kind := sym.kind
         qualified_name := sym.qualified_name
         file_path := sym.file_path
         start_line := sym.start_line
         end_line := sym.end_line
         depth := sym.depth
         included_as := mode
         source := source
         selection_reason := selectionReason topology_reason sym.depth mode sym.is_seed }] }

/-- The fragment initially chosen for a symbol: the on-disk source span for
a seed outside signatures-only mode, the stored signature otherwise. -/
def chosenFragment (fs : Str → Option Str) (include_signatures_only : Bool)
    (sym : SymbolData) : Str :=
  if sym.is_seed && !include_signatures_only then
    source_fragment fs sym.file_path sym.start_line sym.end_line
  else sym.signature

/-- The body of the packing loop for one topology entry (everything after the
`ranked_symbols` lookup): choose the mode, redact, deduplicate, enforce the
budget with the single full-source → signature fallback. -/
def packStep (fs : Str → Option Str) (include_signatures_only : Bool)
    (budget : Int) (sym : SymbolData) (topology_reason : Str) (st : PackState) :
    PackState :=
  let include_full := sym.is_seed && !include_signatures_only
  let source0 := chosenFragment fs include_signatures_only sym
  let mode0 := if include_full then "full_source".toList else "signature_only".toList
  let rd := redact_sensitive_text source0
  let st := { st with redaction_hits := st.redaction_hits + rd.2 }
  let source1 := rd.1
  let bundle_key := (sym.qualified_name, sym.file_path, source1)
  if st.seen_keys.contains bundle_key then
    { st with duplicate_skips := st.duplicate_skips + 1 }
  else
    let symbol_tokens := estimate_tokens source1
    if st.tokens_used + symbol_tokens > budget then
      if mode0 == "full_source".toList then
        let source2 := sym.signature
        let fallback_key := (sym.qualified_name, sym.file_path, source2)
        if st.seen_keys.contains fallback_key then
          { st with duplicate_skips := st.duplicate_skips + 1 }
        else
          let tok2 := estimate_tokens source2
          if st.tokens_used + tok2 > budget then st
          else packPush st sym topology_reason "signature_only".toList source2
            fallback_key tok2
      else st
    else packPush st sym topology_reason mode0 source1 bundle_key symbol_tokens

/-- The packing loop over the topology order, stopping when the included
count reaches the dynamic node cap. -/
def packLoop (fs : Str → Option Str) (include_signatures_only : Bool)
    (budget cap : Int) (lookup : Int → Option SymbolData) :
    List (Int × Str) → PackState → PackState
  | [], st => st
  | (sid, reason) :: rest, st =>
    if (st.included.length : Int) ≥ cap then st
    else
      match lookup sid with
      | none => packLoop fs include_signatures_only budget cap lookup rest st
      | some sym =>
        packLoop fs include_signatures_only budget cap lookup rest
          (packStep fs include_signatures_only budget sym reason st)

/-- Codepoint-lexicographic order (= Rust `String` byte order on UTF-8). -/
def strLt : Str → Str → Bool
  | [], [] => false
  | [], _ :: _ => true
  | _ :: _, [] => false
  | a :: as_, b :: bs => a.toNat < b.toNat || (a == b && strLt as_ bs)

/-- The quality-metrics block.  The four ratio fields are `f64` divisions in
Rust, modelled over `Fx` with `round4` as `⌊x·10⁴ + ½⌋ / 10⁴` (equal to
`f64::round` for the non-negative values produced here). -/
structure QualityMetrics where
  seed_hit_rate : Fx
  connectedness : Fx
  token_efficiency : Fx
  avg_depth : Fx
  included_count : Int
  dedupe_ratio : Fx
  redaction_hits : Int
deriving DecidableEq

/-- Round to four decimal places (positive denominator). -/
def round4 (v : Fx) : Fx := ⟨Int.fdiv (2 * (10000 * v.num) + v.den) (2 * v.den), 10000⟩

/-- The connectedness BFS of `quality_metrics`. -/
def connectedBfs (adj : Int → List Int) (included_ids : List Int) :
    Nat → List Int → List Int → List Int
  | 0, _, connected => connected
  | _ + 1, [], connected => connected
  | fuel + 1, current :: queue, connected =>
    if connected.contains current then connectedBfs adj included_ids fuel queue connected
    else
      let connected := connected ++ [current]
      let queue := queue ++ (adj current).filter
        (fun nb => included_ids.contains nb && !connected.contains nb)
      connectedBfs adj included_ids fuel queue connected

/-- `quality_metrics(included, seeds, budget, tokens_used, adjacency, …)`. -/
def quality_metrics (included : List IncludedSymbol) (seeds : List Int)
    (token_budget tokens_used : Int) (adj : Int → List Int)
    (duplicate_skips redaction_hits : Int) (bfsFuel : Nat) : QualityMetrics :=
  if included.isEmpty then
    { seed_hit_rate := Fx.ofInt 0, connectedness := Fx.ofInt 0
      token_efficiency := Fx.ofInt 0, avg_depth := Fx.ofInt 0
      included_count := 0, dedupe_ratio := Fx.ofInt 1
      redaction_hits := redaction_hits }
  else
    let included_ids := (included.map (·.id)).eraseDups
    let seed_set := seeds.eraseDups
    let included_seed_ids :=
      sortStable (fun a b => a < b) (included_ids.filter (fun i => seed_set.contains i))
    let seed_hit_rate :=
      Fx.div (Fx.ofInt included_seed_ids.length) (Fx.ofInt (max seed_set.length 1))
    let connected := connectedBfs adj included_ids bfsFuel included_seed_ids []
    let connectedness :=
      Fx.div (Fx.ofInt connected.length) (Fx.ofInt (max included_ids.length 1))
    let avg_depth :=
      Fx.div (fxSum (included.map (fun s => Fx.ofInt s.depth)))
        (Fx.ofInt (max included.length 1))
    let token_efficiency :=
      Fx.div (Fx.ofInt tokens_used) (Fx.ofInt (max token_budget 1))
    let included_count := (included.length : Int)
    let dedupe_ratio :=
      Fx.div (Fx.ofInt included_count)
        (Fx.ofInt (max (included_count + duplicate_skips) 1))
    { seed_hit_rate := round4 seed_hit_rate
      connectedness := round4 connectedness
      token_efficiency := round4 token_efficiency
      avg_depth := round4 avg_depth
      included_count := included_count
      dedupe_ratio := round4 dedupe_ratio
      redaction_hits := redaction_hits }

/-- A per-file group of the bundle. -/
structure FileEntry where
  path : Str
  symbols : List IncludedSymbol
deriving DecidableEq

/-- The `context_bundle` object.  The empty-seed early return carries neither
`selection_strategy` nor `quality_metrics`; those fields are `Option`s. -/
structure ContextBundle where
  summary : Str
  relationship_map : Str
  selection_strategy : Option Str
  quality_metrics : Option QualityMetrics
  files : List FileEntry
  tokens_used : Int
  token_budget : Int
  symbols_included : Int
  symbols_available : Int
deriving DecidableEq

/-- The full `get_context` payload. -/
structure ContextPayload where
  query : Str
  context_bundle : ContextBundle
deriving DecidableEq

/-- Step 11: group included symbols by file (`BTreeMap`: paths ascending),
each file's symbols sorted by `start_line` (stable). -/
def groupFiles (included : List IncludedSymbol) : List FileEntry :=
  let paths := (included.map (·.file_path)).eraseDups
  let sorted_paths := sortStable strLt paths
  sorted_paths.map (fun path =>
    { path := path
      symbols := sortStable (fun a b => a.start_line < b.start_line)
        (included.filter (fun s => s.file_path == path)) })

/-- The context bundle of the empty early return of `get_context_impl`
(step 4: no seeds resolved). -/
def emptyContextBundle (clamped_budget : Int) : ContextBundle :=
  { summary := "No relevant symbols found.".toList
    relationship_map := []
    selection_strategy := none
    quality_metrics := none
    files := []
    tokens_used := 0
    token_budget := clamped_budget
    symbols_included := 0
    symbols_available := 0 }

/-- Steps 1–14 of `get_context_impl` after query normalization has
succeeded. -/
def get_context_resolved (fts : Str → List Int) (fs : Str → Option Str)
    (db : CtxDb) (normalized_query : Str) (entry_points : List Str)
    (token_budget : Int) (include_signatures_only : Bool)
    (expansion_depth : Int) : ContextPayload :=
  let clamped_entry_points := entry_points.take MAX_CONTEXT_SEEDS
    let clamped_budget :=
      clamp_budget token_budget MIN_CONTEXT_TOKEN_BUDGET MAX_CONTEXT_TOKEN_BUDGET
    let clamped_depth := clamp_depth expansion_depth MAX_CONTEXT_EXPANSION_DEPTH
    let total_symbols := (db.symbols.length : Int)
    let dynamic_node_cap := adaptive_graph_cap total_symbols MAX_GRAPH_VISITED (some 128)
    let seeds := pick_seeds fts db normalized_query clamped_entry_points
    if seeds.isEmpty then
      { query := normalized_query
        context_bundle := emptyContextBundle clamped_budget }
    else
      let reached := expand db seeds clamped_depth dynamic_node_cap
      let symbol_ids := reached.map (·.1)
      let ppr := personalized_pagerank db seeds symbol_ids (fx 85 100) 20
      let symbol_rows := db.symbols.filter (fun s => symbol_ids.contains s.id)
      let terms := query_terms normalized_query
      let seed_list := seeds
      let ranked0 : List (Fx × SymbolData) := symbol_rows.map (fun row =>
        let depth := (assocFindI reached row.id).getD 0
        let pprv := ppr row.id
        let proximity_bonus : Fx :=
          if depth == 0 then Fx.ofInt 1 else if depth == 1 then fx 7 10
          else if depth == 2 then fx 4 10 else fx 1 4
        let signature := row.signature.getD []
        let base_score :=
          Fx.mul (Fx.mul pprv (Fx.fmax row.pagerank_score (fx 1 1000000000)))
            proximity_bonus
        let lexical_relevance :=
          symbol_query_relevance row.name row.qualified_name signature terms
        let lexical_boost : Fx :=
          Fx.add (Fx.ofInt 1)
            (Fx.fmin (Fx.mul (fx 8 100) (Fx.ofInt lexical_relevance)) (fx 1 4))
        (Fx.mul base_score lexical_boost,
          { id := row.id
            name := row.name
            kind := row.kind
            qualified_name := row.qualified_name
            file_path := row.file_path
            start_line := row.start_line
            end_line := row.end_line
            signature := signature
            is_seed := seed_list.contains row.id
            depth := depth }))
      let ranked := sortStable (fun a b => Fx.lt b.1 a.1) ranked0
      let adj := buildAdj db symbol_ids
      let topo := topology_order ranked seeds adj
        (seeds.length + symbol_ids.length + 4 * db.edges.length + 8)
      let lookup : Int → Option SymbolData := fun i =>
        (ranked.reverse.find? (fun p => p.2.id == i)).map (·.2)
      let init : PackState :=
        { tokens_used := 0, included := [], seen_keys := []
          duplicate_skips := 0, redaction_hits := 0 }
      let packed := packLoop fs include_signatures_only clamped_budget
        dynamic_node_cap lookup topo init
      let file_entries := groupFiles packed.included
      let summary :=
        "Selected ".toList ++ natToStr packed.included.length ++
          " symbols from ".toList ++ natToStr file_entries.length ++ " files.".toList
      let relationship_map :=
        List.intercalate " -> ".toList ((packed.included.take 8).map (·.name))
      let qm := quality_metrics packed.included seeds clamped_budget
        packed.tokens_used adj packed.duplicate_skips packed.redaction_hits
        ((packed.included.length + 1) * (2 * db.edges.length + 2))
      { query := normalized_query
        context_bundle :=
          { summary := summary
            relationship_map := relationship_map
            selection_strategy := some "seeded_topology_then_rank".toList
            quality_metrics := some qm
            files := file_entries
            tokens_used := packed.tokens_used
            token_budget := clamped_budget
            symbols_included := (packed.included.length : Int)
            symbols_available := (ranked.length : Int) } }

/-- `get_context_impl`: normalize the query, then assemble the payload.
`none` models the propagated `truncate_query` panic. -/
def get_context_impl (fts : Str → List Int) (fs : Str → Option Str) (db : CtxDb)
    (query : Str) (entry_points : List Str) (token_budget : Int)
    (include_signatures_only : Bool) (expansion_depth : Int) :
    Option ContextPayload :=
  match truncate_query query with
  | none => none
  | some normalized_query =>
    some (get_context_resolved fts fs db normalized_query entry_points
      token_budget include_signatures_only expansion_depth)

/-!
## Concrete instances

Fixed small inputs used to witness the theorems below on concrete runs.
-/

/-- `true` on a failed shard outcome. -/
def ShardOutcome.isErr {α : Type} : ShardOutcome α → Bool
  | .ok _ => false
  | .err _ => true

/-- An FTS oracle returning no rows. -/
def cFtsEmpty : Str → List Int := fun _ => []

/-- A file system on which every read fails (treated as empty content). -/
def cFsNone : Str → Option Str := fun _ => none

/-- One indexed symbol. -/
def c1Sym : CtxSymbolRow :=
  ⟨1, "alpha".toList, "function".toList, "m.alpha".toList, "m.py".toList,
    1, 3, some "def alpha(x)".toList, fx 1 2⟩

/-- A store holding just `c1Sym`. -/
def c1Db : CtxDb := ⟨[c1Sym], []⟩

/-- The payload `get_context_impl` produces on `c1Db` for entry point
`alpha`, budget 8000, signatures only, depth 2. -/
def c1Payload : ContextPayload :=
  ⟨"q".toList,
    ⟨"Selected 1 symbols from 1 files.".toList, "alpha".toList,
      some "seeded_topology_then_rank".toList,
      some ⟨⟨10000, 10000⟩, ⟨10000, 10000⟩, ⟨4, 10000⟩, ⟨0, 10000⟩, 1,
        ⟨10000, 10000⟩, 0⟩,
      [⟨"m.py".toList,
        [⟨1, "alpha".toList, "function".toList, "m.alpha".toList, "m.py".toList,
          1, 3, 0, "signature_only".toList, "def alpha(x)".toList,
          "seed,depth=0,mode=signature_only,seed_match".toList⟩]⟩],
      3, 8000, 1, 1⟩⟩

/-- A signature holding an OpenAI-style secret (20 alphanumerics after
`sk-`). -/
def c4LeakySignature : Str := "k = sk-abcdefghijklmnopqrst".toList

/-- A symbol whose signature holds the secret and whose source span is
line 1 of `m.py`. -/
def c4Sym : CtxSymbolRow :=
  ⟨1, "alpha".toList, "function".toList, "m.alpha".toList, "m.py".toList,
    1, 1, some c4LeakySignature, fx 1 2⟩

/-- A store holding just `c4Sym`. -/
def c4Db : CtxDb := ⟨[c4Sym], []⟩

/-- A file system on which `m.py` is one 200-character line: its fragment
costs 57 tokens, far over the counterexample budget of 10. -/
def c4Fs : Str → Option Str :=
  fun path => if path == "m.py".toList then some (List.replicate 200 'x') else none

/-- The `SymbolData` of `c4Sym` as packed for a seed at depth 0. -/
def c4SymData : SymbolData :=
  ⟨1, "alpha".toList, "function".toList, "m.alpha".toList, "m.py".toList,
    1, 3, c4LeakySignature, true, 0⟩

/-- A `ranked_symbols` lookup resolving only id 1. -/
def c4Lookup : Int → Option SymbolData :=
  fun i => if i == 1 then some c4SymData else none

/-- The initial packing state. -/
def packInit : PackState := ⟨0, [], [], 0, 0⟩

/-- A stored symbol of file `a.py`. -/
def c3OldSym : SymbolRecord :=
  ⟨"f".toList, "m.f".toList, "function".toList, "a.py".toList, 1, 2,
    none, none, none, false, false, none, none, Fx.ofInt 0, []⟩

/-- A new symbol record whose `file_path` (`b.py`) has no `files` row, so its
insert violates the `symbols.file_path REFERENCES files(path)` foreign key. -/
def c3NewSym : SymbolRecord :=
  ⟨"g".toList, "m.g".toList, "function".toList, "b.py".toList, 1, 2,
    none, none, none, false, false, none, none, Fx.ofInt 0, []⟩

/-- A store holding file `a.py` with symbol `c3OldSym`, its FTS row, and no
parameters. -/
def c3St0 : DbState :=
  ⟨["a.py".toList], [(1, c3OldSym)], [],
    [⟨1, "f".toList, "m.f".toList, [], []⟩], 2⟩

/-- A caller that is the method `m` of class `C` in package `pkg`. -/
def c6Caller : ExtractedSymbol :=
  ⟨"m".toList, "pkg.C.m".toList, "method".toList, "c.py".toList, 1, 10,
    none, none, none, false, false, none, []⟩

/-- The class-scoped candidate `pkg.C.helper`. -/
def c6Target : ExtractedSymbol :=
  ⟨"helper".toList, "pkg.C.helper".toList, "method".toList, "c.py".toList,
    12, 20, none, none, none, false, false, none, []⟩

/-- A same-named candidate outside the caller's class. -/
def c6Other : ExtractedSymbol :=
  ⟨"helper".toList, "other.helper".toList, "function".toList, "d.py".toList,
    1, 5, none, none, none, false, false, none, []⟩

/-- A call-site `self.helper()` on line 5. -/
def c6Cs : CallSite := ⟨"helper".toList, 5, some "self".toList⟩

/-- A store holding one symbol named `beta` (so the no-seed run below is not
about an empty store). -/
def c9Db : CtxDb :=
  ⟨[⟨7, "beta".toList, "function".toList, "m.beta".toList, "m.py".toList,
      1, 2, none, Fx.ofInt 0⟩], []⟩

/-- A TypeScript class whose body closes on line 4. -/
def c10TsSrc : Str :=
  "export class Widget ".toList ++ [Char.ofNat 123] ++
    "\n  draw(scale: number): void ".toList ++ [Char.ofNat 123] ++
    "\n  ".toList ++ [Char.ofNat 125] ++ "\n".toList ++ [Char.ofNat 125] ++ "\n".toList

/-- Specification scenario A: a Java class whose body closes on line 5. -/
def c10JavaSrc : Str :=
  "package com.ex;\npublic class S ".toList ++ [Char.ofNat 123] ++
    "\n public static void d(int c) ".toList ++ [Char.ofNat 123] ++
    "\n ".toList ++ [Char.ofNat 125] ++ "\n".toList ++ [Char.ofNat 125] ++ "\n".toList

/-!
# Theorems
-/

/-- Closed form of the federated fan-out loop: results are the concatenated
per-shard contributions, reports follow the outcomes, and the failure counter
adds the number of failed outcomes. -/
theorem federatedLoop_spec {α : Type} (l : List (ShardOutcome α)) (acc : List α)
    (rep : List ShardReport) (f : Int) :
    federatedLoop α l acc rep f =
      (acc ++ (l.map shardContribution).flatten,
       rep ++ l.map (fun o =>
         (⟨if o.isErr then "error".toList else "ok".toList⟩ : ShardReport)),
       f + ((l.filter ShardOutcome.isErr).length : Int)) := by
  induction l generalizing acc rep f with
  | nil => simp [federatedLoop]
  | cons o rest ih =>
    cases o with
    | ok rs =>
      simp [federatedLoop, ih, shardContribution, ShardOutcome.isErr,
        List.append_assoc]
    | err m =>
      simp [federatedLoop, ih, shardContribution, ShardOutcome.isErr,
        List.append_assoc]
      omega

/-- Claim C2 (amended): for every federated query, `shards_queried` equals
the number of shard ids in the plan and `shards_failed` the number of failed
shards — so their sum is the plan size plus the failure count, not the plan
size — and one shard's outcome does not change the results collected from
the other shards: the concatenated output around any one shard is the
concatenation of the outputs of the shards before it, its own contribution,
and the outputs of the shards after it. -/
theorem execute_search_shard_accounting {α : Type}
    (outcomes l1 l2 : List (ShardOutcome α)) (o : ShardOutcome α) :
    (execute_search outcomes).shards_queried = (outcomes.length : Int) ∧
    (execute_search outcomes).shards_failed =
      ((outcomes.filter ShardOutcome.isErr).length : Int) ∧
    (execute_search (l1 ++ o :: l2)).results =
      (execute_search l1).results ++ shardContribution o ++
        (execute_search l2).results := by
  refine ⟨?_, ?_, ?_⟩
  · simp [execute_search, federatedLoop_spec]
  · simp [execute_search, federatedLoop_spec]
  · simp [execute_search, federatedLoop_spec, List.map_append, List.flatten_append,
      List.append_assoc]

/-- Claim C2, counterexample to the claim as stated: with a single-shard plan
whose shard fails, `shards_queried + shards_failed = 2`, not the plan size 1.
-/
theorem execute_search_sum_counterexample :
    (execute_search ([ShardOutcome.err []] : List (ShardOutcome Nat))).shards_queried +
        (execute_search ([ShardOutcome.err []] : List (ShardOutcome Nat))).shards_failed ≠
      (([ShardOutcome.err []] : List (ShardOutcome Nat)).length : Int) := by
  decide

/-- Claim C7, counterexample to the claim as stated: with `lo > hi` the code
(`min (max v lo) hi`) differs from the claimed `max lo (min v hi)`:
`clamp_int 0 5 3 = 3` while `max 5 (min 0 3) = 5`. -/
theorem clamp_int_counterexample : clamp_int 0 5 3 ≠ max 5 (min 0 3) := by
  decide

/-- Claim C7 (amended): `clamp_int` is monotone non-decreasing in `v` for all
`lo`, `hi`; and when `lo ≤ hi` it equals `max lo (min v hi)` and lies in
`[lo, hi]`. -/
theorem clamp_int_spec (v lo hi : Int) :
    (∀ a b : Int, a ≤ b → clamp_int a lo hi ≤ clamp_int b lo hi) ∧
    (lo ≤ hi →
      clamp_int v lo hi = max lo (min v hi) ∧
        lo ≤ clamp_int v lo hi ∧ clamp_int v lo hi ≤ hi) := by
  constructor
  · intro a b hab
    exact min_le_min (max_le_max hab le_rfl) le_rfl
  · intro h
    unfold clamp_int
    refine ⟨?_, ?_, ?_⟩ <;> omega

/-- Claim C7 witness: the amended statement at `v = 2, lo = 1, hi = 5` and
monotonicity at `0 ≤ 3`. -/
theorem clamp_int_spec_witness :
    clamp_int 2 1 5 = max 1 (min 2 5) ∧ clamp_int 0 1 5 ≤ clamp_int 3 1 5 :=
  ⟨((clamp_int_spec 2 1 5).2 (by decide)).1,
    (clamp_int_spec 0 1 5).1 0 3 (by decide)⟩

/-- Claim C5: `truncate_query` on 511 `a`s followed by `é` panics — the
trimmed input is 513 bytes long, and byte offset 512 falls inside the
two-byte `é`, so the Rust slice `stripped[..512]` aborts instead of
returning a truncated prefix. -/
theorem truncate_query_panics :
    truncate_query (List.replicate 511 'a' ++ ['é']) = none ∧
    byteLen (rustTrim (List.replicate 511 'a' ++ ['é'])) = 513 := by decide

/-- Claim C3: `replace_file_symbols` is not atomic.  Replacing the symbols of
`a.py` with one record whose own `file_path` is the non-existent `b.py`
surfaces a foreign-key error after the deletes have run: the call reports
failure, yet the persisted state has lost the file's previous symbol and FTS
rows (no transaction wraps the statement sequence). -/
theorem replace_file_symbols_not_atomic :
    (replace_file_symbols c3St0 "a.py".toList [c3NewSym]).1 = false ∧
    (replace_file_symbols c3St0 "a.py".toList [c3NewSym]).2.symbols = [] ∧
    (replace_file_symbols c3St0 "a.py".toList [c3NewSym]).2.symbol_fts = [] ∧
    c3St0.symbols ≠ [] ∧ c3St0.symbol_fts ≠ [] := by decide

/-- Claim C8: `rank_symbol` is monotone non-decreasing in `pagerank`, holding
query, name, qualified name, signature, docstring and the caller/callee
counts fixed, in both the hybrid-enabled and hybrid-disabled modes (and for
either state of the semantic toggle). -/
theorem rank_symbol_pagerank_mono (he ve : Bool) (q n qn : Str)
    (sig doc : Option Str) (callers callees : Int) (p1 p2 : ℝ) (h : p1 ≤ p2) :
    rank_symbol he ve q n qn sig doc p1 callers callees ≤
      rank_symbol he ve q n qn sig doc p2 callers callees := by
  have hs : structural_score p1 callers callees ≤ structural_score p2 callers callees := by
    unfold structural_score
    have hm : max p1 0 ≤ max p2 0 := max_le_max h le_rfl
    linarith
  unfold rank_symbol
  cases he with
  | false => simpa using hs
  | true =>
    simp only [Bool.not_true]
    have h35 : structural_score p1 callers callees * 0.35 ≤
        structural_score p2 callers callees * 0.35 :=
      mul_le_mul_of_nonneg_right hs (by norm_num)
    simpa using by linarith

/-- Claim C8 witness: monotonicity instantiated at pageranks `0 ≤ 1`. -/
theorem rank_symbol_pagerank_mono_witness :
    rank_symbol true false "q".toList "n".toList "qn".toList none none 0 1 2 ≤
      rank_symbol true false "q".toList "n".toList "qn".toList none none 1 1 2 :=
  rank_symbol_pagerank_mono true false "q".toList "n".toList "qn".toList
    none none 1 2 0 1 (by norm_num)

/-- Claim C10: method symbols keep `end_line = start_line` in both
extractors, and the Java class receives the closing-brace line (5) as its
`end_line`; but the TypeScript class — whose body closes on line 4 — keeps
`end_line = 1`, its declaration line: `typescript_symbols` never writes the
closing line back (its class stack stores no symbol index), contradicting
the claim and §4.4 of the specification. -/
theorem extractor_end_lines :
    ((typescript_symbols c10TsSrc "src/widget.ts".toList).1.map
        (fun s => (s.kind, s.start_line, s.end_line))) =
      [("class".toList, 1, 1), ("method".toList, 2, 2)] ∧
    ((java_symbols c10JavaSrc "S.java".toList).1.map
        (fun s => (s.kind, s.start_line, s.end_line))) =
      [("class".toList, 2, 5), ("method".toList, 3, 3)] := by decide

/-- Claim C6: when the caller is a method of a class (its qualified name
splits as `pre.last` with non-empty `pre`), the call-site's normalized
receiver is empty, `self`, `cls` or `this`, and exactly one name-matched
candidate is a method whose qualified name extends the caller's class prefix
`pre.`, then `resolve_targets` returns exactly that candidate with confidence
1.0 (strategy (a), single hit). -/
theorem resolve_targets_class_scoped
    (cs : CallSite) (caller target : ExtractedSymbol)
    (cands : List ExtractedSymbol) (ih : List Str) (ah : List (Str × List Str))
    (rth lh sh : List Str) (pre lastc : Str)
    (hkind : caller.kind = "method".toList)
    (hsplit : rsplitOnceDot caller.qualified_name = some (pre, lastc))
    (hpre : pre ≠ [])
    (hrecv : lowerStr (rustTrim (cs.receiver_name.getD [])) = [] ∨
      lowerStr (rustTrim (cs.receiver_name.getD [])) = "self".toList ∨
      lowerStr (rustTrim (cs.receiver_name.getD [])) = "cls".toList ∨
      lowerStr (rustTrim (cs.receiver_name.getD [])) = "this".toList)
    (huniq : (cands.filter (fun s =>
        (cs.callee_name :: (assocGet ah cs.callee_name).getD []).contains s.name)).filter
        (fun s => s.kind == "method".toList &&
          strStartsWith s.qualified_name (pre ++ ['.'])) = [target]) :
    resolve_targets cs caller cands ih ah rth lh sh = ([target], Fx.ofInt 1) := by
  have hmne : (cands.filter (fun s =>
      (cs.callee_name :: (assocGet ah cs.callee_name).getD []).contains s.name)).isEmpty
      = false := by
    rcases hfil : cands.filter (fun s =>
        (cs.callee_name :: (assocGet ah cs.callee_name).getD []).contains s.name) with
      _ | ⟨a, l⟩
    · rw [hfil] at huniq
      simp at huniq
    · rw [hfil]
      rfl
  unfold resolve_targets
  dsimp only
  rw [hmne, hkind, hsplit]
  simp only [Bool.false_eq_true, if_false, beq_self_eq_true, if_true]
  rw [huniq]
  have hpre2 : pre.isEmpty = false := by
    cases pre
    · exact absurd rfl hpre
    · rfl
  rw [hpre2]
  simp only [Bool.not_false, if_true, List.isEmpty_cons, Bool.not_false]
  rcases hrecv with h | h | h | h <;>
    simp [h, List.isEmpty_nil]

/-- Claim C6 witness: `self.helper()` from method `pkg.C.m` resolves to the
unique class-scoped candidate `pkg.C.helper` with confidence 1.0, past a
same-named candidate in another module. -/
theorem resolve_targets_class_scoped_witness :
    resolve_targets c6Cs c6Caller [c6Target, c6Other] [] [] [] [] [] =
      ([c6Target], Fx.ofInt 1) :=
  resolve_targets_class_scoped c6Cs c6Caller c6Target [c6Target, c6Other]
    [] [] [] [] [] "pkg.C".toList "m".toList (by decide) (by decide) (by decide)
    (by decide) (by decide)

/-- One packing step never pushes `tokens_used` past the budget. -/
theorem packStep_tokens_le (fs : Str → Option Str) (sigs : Bool) (budget : Int)
    (sym : SymbolData) (reason : Str) (st : PackState)
    (h : st.tokens_used ≤ budget) :
    (packStep fs sigs budget sym reason st).tokens_used ≤ budget := by
  unfold packStep packPush
  dsimp only
  split_ifs <;> simp_all

/-- The packing loop never pushes `tokens_used` past the budget. -/
theorem packLoop_tokens_le (fs : Str → Option Str) (sigs : Bool)
    (budget cap : Int) (lookup : Int → Option SymbolData)
    (topo : List (Int × Str)) (st : PackState)
    (h : st.tokens_used ≤ budget) :
    (packLoop fs sigs budget cap lookup topo st).tokens_used ≤ budget := by
  induction topo generalizing st with
  | nil => simpa [packLoop] using h
  | cons e rest ih =>
    rcases e with ⟨sid, reason⟩
    unfold packLoop
    split
    · exact h
    · cases hl : lookup sid
      · simpa [hl] using ih _ h
      · simpa [hl] using ih _ (packStep_tokens_le fs sigs budget _ reason st h)

/-- The bundle of `get_context_resolved` respects the clamped budget, and
reports that clamped budget. -/
theorem get_context_resolved_budget (fts : Str → List Int) (fs : Str → Option Str)
    (db : CtxDb) (nq : Str) (entries : List Str) (budget : Int) (sigs : Bool)
    (depth : Int) :
    (get_context_resolved fts fs db nq entries budget sigs depth).context_bundle.tokens_used ≤
      (get_context_resolved fts fs db nq entries budget sigs depth).context_bundle.token_budget ∧
    (get_context_resolved fts fs db nq entries budget sigs depth).context_bundle.token_budget =
      clamp_int budget MIN_CONTEXT_TOKEN_BUDGET MAX_CONTEXT_TOKEN_BUDGET := by
  have hb : (0 : Int) ≤ clamp_budget budget MIN_CONTEXT_TOKEN_BUDGET MAX_CONTEXT_TOKEN_BUDGET := by
    unfold clamp_budget clamp_int MIN_CONTEXT_TOKEN_BUDGET MAX_CONTEXT_TOKEN_BUDGET
    omega
  unfold get_context_resolved
  dsimp only
  split
  · exact ⟨by simpa [emptyContextBundle] using hb, rfl⟩
  · refine ⟨?_, rfl⟩
    exact packLoop_tokens_le _ _ _ _ _ _ _ hb

/-- Claim C1: whenever `get_context_impl` returns a payload, its
`tokens_used` is at most its reported `token_budget`, and that budget is the
requested budget clamped to `[MIN_CONTEXT_TOKEN_BUDGET,
MAX_CONTEXT_TOKEN_BUDGET] = [1, 32000]` — no sequence of included
full-source or signature-only fragments pushes `tokens_used` past the
clamped budget. -/
theorem get_context_tokens_within_budget (fts : Str → List Int)
    (fs : Str → Option Str) (db : CtxDb) (query : Str) (entries : List Str)
    (budget : Int) (sigs : Bool) (depth : Int) (p : ContextPayload)
    (h : get_context_impl fts fs db query entries budget sigs depth = some p) :
    p.context_bundle.tokens_used ≤ p.context_bundle.token_budget ∧
    p.context_bundle.token_budget =
      clamp_int budget MIN_CONTEXT_TOKEN_BUDGET MAX_CONTEXT_TOKEN_BUDGET := by
  unfold get_context_impl at h
  rcases htr : truncate_query query with _ | nq
  · rw [htr] at h
    exact absurd h (by simp)
  · rw [htr] at h
    obtain rfl := Option.some.inj h
    exact get_context_resolved_budget fts fs db nq entries budget sigs depth

/-- Claim C1 witness: the theorem applied to a one-symbol store (entry point
`alpha`, requested budget 8000, signatures only): the returned bundle uses 3
of the 8000 budgeted tokens. -/
theorem get_context_tokens_within_budget_witness :
    c1Payload.context_bundle.tokens_used ≤ c1Payload.context_bundle.token_budget ∧
    c1Payload.context_bundle.token_budget =
      clamp_int 8000 MIN_CONTEXT_TOKEN_BUDGET MAX_CONTEXT_TOKEN_BUDGET :=
  get_context_tokens_within_budget cFtsEmpty cFsNone c1Db "q".toList
    ["alpha".toList] 8000 true 2 c1Payload (by decide)

/-- When no entry point, FTS row or LIKE row resolves, `pick_seeds` returns
no seeds. -/
theorem pick_seeds_no_match (fts : Str → List Int) (db : CtxDb) (q : Str)
    (entries : List Str)
    (hentry : ∀ e ∈ entries,
      db.symbols.filter (fun s => s.qualified_name == e || s.name == e) = [])
    (hfts : fts (rustTrim q) = [])
    (hlike : db.symbols.filter (fun s =>
        (((splitWs (rustTrim q)).map (fun w => lowerStr (rustTrim w))).filter
          (fun w => !w.isEmpty)).any (fun w =>
            likeMatch ('%' :: w ++ ['%']) (lowerStr s.name) ||
            likeMatch ('%' :: w ++ ['%']) (lowerStr s.qualified_name))) = []) :
    pick_seeds fts db q entries = [] := by
  have hfb : pick_seeds_fallback fts db q = [] := by
    unfold pick_seeds_fallback
    dsimp only
    rw [hfts, hlike]
    simp
    exact fun x hx hne => rfl
  have hseeds : entries.filterMap (fun entry =>
      ((sortByPrDesc (db.symbols.filter (fun s =>
        s.qualified_name == entry || s.name == entry))).head?).map (·.id)) = [] := by
    rw [List.filterMap_eq_nil_iff]
    intro e he
    rw [hentry e he]
    rfl
  unfold pick_seeds
  dsimp only
  rw [hseeds]
  split <;> simp [hfb]

/-- Claim C9: when the taken entry points resolve no symbol, the FTS seed
query returns no row, and no symbol LIKE-matches any query word, the context
engine returns a successful payload whose bundle is the fixed empty bundle:
summary `"No relevant symbols found."`, empty files list, empty
relationship map, `tokens_used = 0` and `symbols_included = 0` — not a
"not found" error. -/
theorem get_context_empty_seed_payload (fts : Str → List Int)
    (fs : Str → Option Str) (db : CtxDb) (query : Str) (entries : List Str)
    (budget : Int) (sigs : Bool) (depth : Int) (nq : Str)
    (hq : truncate_query query = some nq)
    (hentry : ∀ e ∈ entries.take MAX_CONTEXT_SEEDS,
      db.symbols.filter (fun s => s.qualified_name == e || s.name == e) = [])
    (hfts : fts (rustTrim nq) = [])
    (hlike : db.symbols.filter (fun s =>
        (((splitWs (rustTrim nq)).map (fun w => lowerStr (rustTrim w))).filter
          (fun w => !w.isEmpty)).any (fun w =>
            likeMatch ('%' :: w ++ ['%']) (lowerStr s.name) ||
            likeMatch ('%' :: w ++ ['%']) (lowerStr s.qualified_name))) = []) :
    get_context_impl fts fs db query entries budget sigs depth =
      some ⟨nq, emptyContextBundle
        (clamp_budget budget MIN_CONTEXT_TOKEN_BUDGET MAX_CONTEXT_TOKEN_BUDGET)⟩ := by
  unfold get_context_impl
  rw [hq]
  unfold get_context_resolved
  dsimp only
  rw [pick_seeds_no_match fts db nq _ hentry hfts hlike]
  rfl

/-- Claim C9 witness: on a store holding only `m.beta`, the query `zzz` with
unresolvable entry point `nope` yields the empty bundle with the clamped
budget 500. -/
theorem get_context_empty_seed_payload_witness :
    get_context_impl cFtsEmpty cFsNone c9Db "zzz".toList ["nope".toList] 500 false 2 =
      some ⟨"zzz".toList, emptyContextBundle
        (clamp_budget 500 MIN_CONTEXT_TOKEN_BUDGET MAX_CONTEXT_TOKEN_BUDGET)⟩ :=
  get_context_empty_seed_payload cFtsEmpty cFsNone c9Db "zzz".toList
    ["nope".toList] 500 false 2 "zzz".toList (by decide) (by decide) (by decide)
    (by decide)

/-- Every packing step adds to `redaction_hits` exactly the substitution
count of the fragment it initially chose — whether the symbol ends up
included, skipped as a duplicate, or skipped for exceeding the budget. -/
theorem packStep_hits (fs : Str → Option Str) (sigs : Bool) (budget : Int)
    (sym : SymbolData) (reason : Str) (st : PackState) :
    (packStep fs sigs budget sym reason st).redaction_hits =
      st.redaction_hits + (redact_sensitive_text (chosenFragment fs sigs sym)).2 := by
  unfold packStep packPush
  dsimp only
  split_ifs <;> rfl

/-- A packing step grows the included list by at most one entry. -/
theorem packStep_included_len (fs : Str → Option Str) (sigs : Bool)
    (budget : Int) (sym : SymbolData) (reason : Str) (st : PackState) :
    (packStep fs sigs budget sym reason st).included.length ≤
      st.included.length + 1 := by
  unfold packStep packPush
  dsimp only
  split_ifs <;> simp

/-- The packing loop's hit accounting: starting under the node cap, the
final `redaction_hits` adds, over every topology entry that resolves, the
substitution count of the fragment chosen for it — including entries whose
fragment is then skipped. -/
theorem packLoop_hits (fs : Str → Option Str) (sigs : Bool) (budget cap : Int)
    (lookup : Int → Option SymbolData) (topo : List (Int × Str)) (st : PackState)
    (hcap : (st.included.length : Int) + (topo.length : Int) ≤ cap) :
    (packLoop fs sigs budget cap lookup topo st).redaction_hits =
      st.redaction_hits + (topo.map (fun e =>
        match lookup e.1 with
        | none => 0
        | some sym => (redact_sensitive_text (chosenFragment fs sigs sym)).2)).sum := by
  induction topo generalizing st with
  | nil => simp [packLoop]
  | cons e rest ih =>
    rcases e with ⟨sid, reason⟩
    have hlt : ¬ ((st.included.length : Int) ≥ cap) := by
      simp only [List.length_cons] at hcap
      push_cast at hcap ⊢
      omega
    unfold packLoop
    split
    · omega
    · cases hl : lookup sid
      · have := ih st (by simp only [List.length_cons] at hcap; push_cast at hcap ⊢; omega)
        simp [hl, this]
      · rename_i sym
        have hlen := packStep_included_len fs sigs budget sym reason st
        have hcap2 : ((packStep fs sigs budget sym reason st).included.length : Int) +
            (rest.length : Int) ≤ cap := by
          simp only [List.length_cons] at hcap
          push_cast at hcap ⊢
          omega
        have := ih (packStep fs sigs budget sym reason st) hcap2
        simp [hl, this, packStep_hits]
        omega

/-- Claim C4 (amended), stated as a conjunction over the packing machinery of
`get_context_impl`:

1. starting under the dynamic node cap, the final `redaction_hits` is the
   total substitution count over the fragments chosen for **every processed
   topology entry** — also those skipped as duplicates or for exceeding the
   budget, so `redaction_hits` can exceed the substitutions present in the
   included sources; and
2. every symbol a packing step includes carries either the redaction image
   of its chosen fragment (so every occurrence of `sk-` + 20 alphanumerics
   in that fragment was replaced before being counted against the budget),
   or — on the full-source → signature fallback — its **raw, unredacted
   signature**. -/
theorem redaction_accounting :
    (∀ (fs : Str → Option Str) (sigs : Bool) (budget cap : Int)
        (lookup : Int → Option SymbolData) (topo : List (Int × Str)) (st : PackState),
      (st.included.length : Int) + (topo.length : Int) ≤ cap →
        (packLoop fs sigs budget cap lookup topo st).redaction_hits =
          st.redaction_hits + (topo.map (fun e =>
            match lookup e.1 with
            | none => 0
            | some sym => (redact_sensitive_text (chosenFragment fs sigs sym)).2)).sum) ∧
    (∀ (fs : Str → Option Str) (sigs : Bool) (budget : Int) (sym : SymbolData)
        (reason : Str) (st : PackState),
      ∀ inc ∈ (packStep fs sigs budget sym reason st).included,
        inc ∈ st.included ∨
        inc.source = (redact_sensitive_text (chosenFragment fs sigs sym)).1 ∨
        (inc.source = sym.signature ∧ inc.included_as = "signature_only".toList)) := by
  refine ⟨packLoop_hits, ?_⟩
  intro fs sigs budget sym reason st inc hinc
  unfold packStep packPush at hinc
  dsimp only at hinc
  split_ifs at hinc <;>
    simp only [List.mem_append, List.mem_singleton] at hinc <;>
    first
      | exact Or.inl hinc
      | rcases hinc with hinc | hinc
        · exact Or.inl hinc
        · subst hinc
          simp

/-- Claim C4 witness: one seed symbol in signatures-only mode under budget 1
and cap 5; its signature holds one `sk-` secret.  The loop reports exactly
the one substitution counted for the processed fragment (which was then
skipped for exceeding the budget). -/
theorem redaction_accounting_witness :
    (packLoop cFsNone true 1 5 c4Lookup [((1 : Int), "seed".toList)] packInit).redaction_hits =
      packInit.redaction_hits + ([((1 : Int), "seed".toList)].map (fun e =>
        match c4Lookup e.1 with
        | none => 0
        | some sym => (redact_sensitive_text (chosenFragment cFsNone true sym)).2)).sum ∧
    (packLoop cFsNone true 1 5 c4Lookup [((1 : Int), "seed".toList)] packInit).redaction_hits = 1 :=
  ⟨redaction_accounting.1 cFsNone true 1 5 c4Lookup [((1 : Int), "seed".toList)]
      packInit (by decide),
    by decide⟩

/-- Claim C4, counterexample to the claim as stated: a seed whose on-disk
fragment overflows the budget falls back to its raw signature, which the
bundle then includes verbatim — the included source still contains the
occurrence `sk-abcdefghijklmnopqrst` of `sk-` followed by 20 alphanumerics,
unreplaced. -/
theorem redaction_claim_counterexample :
    ((get_context_impl cFtsEmpty c4Fs c4Db "q".toList ["alpha".toList] 10 false 2).map
      (fun p => (p.context_bundle.files.map (fun f => f.symbols.map (fun s => s.source)),
        p.context_bundle.quality_metrics.map (fun q => q.redaction_hits)))) =
      some ([[c4LeakySignature]], some 0) ∧
    scanMatches RE_OPENAI_KEY c4LeakySignature = ["sk-abcdefghijklmnopqrst".toList] := by
  decide

end Bombe
